import Mathlib

/-!
# Verification of the abraca exchange-connectivity layer

Shallow embedding of the OKX connector of the `abraca` repository:
the instrument codec (`src/abraca/src/common/defs.rs`,
`src/abraca/src/api/okx/parser.rs`), the depth-frame parser, the REST
gateway loop (`src/abraca/src/api/okx/rest.rs`), and the private
streaming client's command/acknowledgement correlation protocol.

Modelling conventions:
* Rust `String`/`&str` values are modelled as `List Char`; Rust
  `str::split(sep)` is `splitChar`.
* Rust `f64` fields are modelled as `ℚ` (no claim below depends on
  floating-point rounding; the only numeric literals involved are
  exactly representable).
* `chrono::NaiveDateTime` values are modelled by their millisecond
  timestamps as `Int` (no claim depends on calendar arithmetic on
  timestamps); `chrono::NaiveDate` is modelled by a `Date` record with
  the Gregorian validity predicate that `NaiveDate` maintains by
  construction.
* A Rust panic (`unwrap`, `unreachable!`, out-of-bounds index) is
  modelled by `Option`/`none`.
-/

deriving instance DecidableEq for Except

namespace Abraca

/-- Currency enumeration. Generated in the source by
`clike_enum!(Ccy, "fixtures/ccys.txt")` (`abraca-macros/src/lib.rs`,
`ClikeEnumInput::expand`): a `#[default] Unknown` variant followed by
one variant per line of the fixture file, deriving `strum` `EnumString`
and `Display` (exact variant-name spellings). The fixture file is not
part of the snapshot; the variants below are the representative codes
appearing in the repository's own tests. The behaviour the claims
depend on (parse failure for unknown codes, `Unknown` as default) comes
from the macro, not from the list's contents. -/
inductive Ccy
  | Unknown
  | BTC
  | ETH
  | LTC
  | BCH
  | USD
  | USDT
  deriving DecidableEq

/-- `strum::Display` for `Ccy`: the variant name. -/
def Ccy.chars : Ccy → List Char
  | .Unknown => "Unknown".data
  | .BTC => "BTC".data
  | .ETH => "ETH".data
  | .LTC => "LTC".data
  | .BCH => "BCH".data
  | .USD => "USD".data
  | .USDT => "USDT".data

/-- `strum::EnumString` for `Ccy` (`TryFrom<&str>`): exact match on a
variant name, error otherwise. -/
def Ccy.fromChars? (cs : List Char) : Option Ccy :=
  if cs = "Unknown".data then some .Unknown
  else if cs = "BTC".data then some .BTC
  else if cs = "ETH".data then some .ETH
  else if cs = "LTC".data then some .LTC
  else if cs = "BCH".data then some .BCH
  else if cs = "USD".data then some .USD
  else if cs = "USDT".data then some .USDT
  else none

/-- Exchange enumeration (`defs.rs`), with `strum` `EnumString`/`Display`. -/
inductive Exch
  | Okx
  | BinanceFutures
  deriving DecidableEq

/-- `strum::Display` for `Exch`. -/
def Exch.chars : Exch → List Char
  | .Okx => "Okx".data
  | .BinanceFutures => "BinanceFutures".data

/-- `strum::EnumString` for `Exch`. -/
def Exch.fromChars? (cs : List Char) : Option Exch :=
  if cs = "Okx".data then some .Okx
  else if cs = "BinanceFutures".data then some .BinanceFutures
  else none

/-- Put/call enumeration (`defs.rs`), `strum` `EnumString`/`Display`. -/
inductive OptType
  | C
  | P
  deriving DecidableEq

/-- `strum::Display` for `OptType`. -/
def OptType.chars : OptType → List Char
  | .C => "C".data
  | .P => "P".data

/-- `strum::EnumString` (`OptType::from_str`). -/
def OptType.fromChars? (cs : List Char) : Option OptType :=
  if cs = "C".data then some .C
  else if cs = "P".data then some .P
  else none

/-- Order side (`defs.rs`). -/
inductive Side
  | Buy
  | Sell
  deriving DecidableEq

/-- Order type (`defs.rs`). -/
inductive OrdType
  | Market
  | Limit
  | PostOnly
  | Fok
  | Ioc
  deriving DecidableEq

/-- Trade mode (`defs.rs`). -/
inductive TdMode
  | Isolated
  | Cross
  | Cash
  deriving DecidableEq

/-- Margin mode (`defs.rs`). -/
inductive MgnMode
  | Isolated
  | Cross
  | Cash
  deriving DecidableEq

/-- Order state (`defs.rs`): `#[default] Unknwon` (sic), then the five
states of the data model. -/
inductive OrdState
  | Unknwon
  | Live
  | PartiallyFilled
  | Filled
  | Canceled
  | Rejected
  deriving DecidableEq

/-- A calendar date, modelling `chrono::NaiveDate` (year, month, day).
A Rust `NaiveDate` is valid by construction; here validity is the
separate predicate `Date.valid`. The year is a `Nat`: every date any
claim touches is in the common era. -/
structure Date where
  y : Nat
  m : Nat
  d : Nat
  deriving DecidableEq

/-- Gregorian leap year. -/
def isLeap (y : Nat) : Bool :=
  (y % 4 = 0 && y % 100 ≠ 0) || y % 400 = 0

/-- Days in a month of the proleptic Gregorian calendar. -/
def daysInMonth (y m : Nat) : Nat :=
  if m = 2 then (if isLeap y then 29 else 28)
  else if m = 4 || m = 6 || m = 9 || m = 11 then 30
  else if 1 ≤ m && m ≤ 12 then 31
  else 0

/-- Validity invariant of `chrono::NaiveDate`. -/
def Date.valid (dt : Date) : Bool :=
  1 ≤ dt.m && dt.m ≤ 12 && 1 ≤ dt.d && dt.d ≤ daysInMonth dt.y dt.m

/-- Two zero-padded decimal digits, as produced by chrono's `%y` (on
`year mod 100`), `%m` and `%d` format items. -/
def pad2 (n : Nat) : List Char :=
  [Nat.digitChar (n / 10), Nat.digitChar (n % 10)]

/-- `exp_date.format("%y%m%d")` from `parser.rs` / `defs.rs`. -/
def fmtYYMMDD (dt : Date) : List Char :=
  pad2 (dt.y % 100) ++ pad2 dt.m ++ pad2 dt.d

/-- Numeric value of a decimal digit character (chrono reads digits as
`b - b'0'`). -/
def digVal (c : Char) : Nat :=
  c.toNat - '0'.toNat

/-- chrono's numeric scanner for a width-2 item: consume one or two
leading decimal digits, greedily. -/
def scan2 : List Char → Option (Nat × List Char)
  | [] => none
  | c :: rest =>
    if c.isDigit then
      match rest with
      | [] => some (digVal c, [])
      | c2 :: rest2 =>
        if c2.isDigit then some (10 * digVal c + digVal c2, rest2)
        else some (digVal c, rest)
    else none

/-- `chrono::NaiveDate::parse_from_str(s, "%y%m%d")`: scan `%y`, `%m`,
`%d` (each up to two digits, greedily), require the input exhausted,
resolve the two-digit year with the POSIX pivot (00–68 → 2000s,
69–99 → 1900s), and validate the resulting calendar date. -/
def parseYYMMDD (cs : List Char) : Option Date :=
  match scan2 cs with
  | none => none
  | some (yy, r1) =>
    match scan2 r1 with
    | none => none
    | some (mm, r2) =>
      match scan2 r2 with
      | none => none
      | some (dd, r3) =>
        if r3 = [] then
          let dt : Date := ⟨if yy ≤ 68 then 2000 + yy else 1900 + yy, mm, dd⟩
          if dt.valid then some dt else none
        else none

/-- Little-endian decimal digits of a positive number, with structural
fuel (the fuel is always instantiated at the number itself, which
suffices: dividing by ten strictly shrinks a positive number). -/
def natDigitsRevFuel : Nat → Nat → List Char
  | 0, _ => []
  | fuel + 1, n =>
    if n = 0 then [] else Nat.digitChar (n % 10) :: natDigitsRevFuel fuel (n / 10)

/-- Little-endian decimal digits of a positive number. -/
def natDigitsRev (n : Nat) : List Char :=
  natDigitsRevFuel n n

/-- Decimal rendering of a `Nat` (Rust `Display` for unsigned integers). -/
def natChars (n : Nat) : List Char :=
  if n = 0 then ['0'] else (natDigitsRev n).reverse

/-- Decimal rendering of an `i64` (Rust `Display`): optional minus sign
followed by the digits of the absolute value. -/
def intChars (k : Int) : List Char :=
  if k < 0 then '-' :: natChars k.natAbs else natChars k.natAbs

/-- Decimal digit-string reader: a nonempty all-digit string to its value. -/
def parseNatChars? (cs : List Char) : Option Nat :=
  if cs = [] then none
  else if cs.all Char.isDigit then
    some (cs.foldl (fun a c => 10 * a + digVal c) 0)
  else none

/-- Rust `str::parse::<i64>()`: optional `+`/`-` sign, then a nonempty
run of decimal digits. (Overflow is not modelled; no claim involves
values near `i64` bounds.) -/
def parseIntChars? (cs : List Char) : Option Int :=
  match cs with
  | [] => none
  | c :: rest =>
    if c = '+' then (parseNatChars? rest).map Int.ofNat
    else if c = '-' then (parseNatChars? rest).map (fun n => -(n : Int))
    else (parseNatChars? cs).map Int.ofNat

/-- Rust `str::split(sep)`: the list of separator-free chunks;
`"".split(sep)` is `[""]`, adjacent separators produce empty chunks. -/
def splitChar (sep : Char) : List Char → List (List Char)
  | [] => [[]]
  | c :: rest =>
    if c = sep then [] :: splitChar sep rest
    else
      match splitChar sep rest with
      | [] => [[c]]
      | g :: gs => (c :: g) :: gs

/-- Instrument type (`defs.rs`): the five variants. -/
inductive InstType
  | Spot
  | Margin
  | Swap
  | Futures (d : Date)
  | Options (d : Date) (stk : Int) (t : OptType)
  deriving DecidableEq

/-- `impl ToString for InstType` (`defs.rs` lines 94–106): the dotted
canonical type encoding. -/
def InstType.toChars : InstType → List Char
  | .Spot => "Spot".data
  | .Margin => "Margin".data
  | .Swap => "Swap".data
  | .Futures d => "Futures-".data ++ fmtYYMMDD d
  | .Options d stk t =>
    "Options-".data ++ fmtYYMMDD d ++ '-' :: intChars stk ++ '-' :: t.chars

/-- `impl TryFrom<&str> for InstType` (`defs.rs` lines 108–147):
split on `-`, dispatch on the first token, read the following tokens
positionally (trailing tokens are ignored, as the source's iterator
`next()` calls are). Error strings are the source's. -/
def InstType.tryFrom (cs : List Char) : Except String InstType :=
  match splitChar '-' cs with
  | [] => .error "empty string"
  | p0 :: rest =>
    if p0 = "Spot".data then .ok .Spot
    else if p0 = "Margin".data then .ok .Margin
    else if p0 = "Swap".data then .ok .Swap
    else if p0 = "Futures".data then
      match rest with
      | [] => .error "expiration date not provided"
      | p1 :: _ =>
        match parseYYMMDD p1 with
        | none => .error "invalid expiration date"
        | some d => .ok (.Futures d)
    else if p0 = "Options".data then
      match rest with
      | [] => .error "expiration date not provided"
      | p1 :: rest1 =>
        match rest1 with
        | [] => .error "strike not provided"
        | p2 :: rest2 =>
          match rest2 with
          | [] => .error "option type not provided"
          | p3 :: _ =>
            match parseYYMMDD p1 with
            | none => .error "invalid expiration date"
            | some d =>
              match parseIntChars? p2 with
              | none => .error "invalid strike"
              | some stk =>
                match OptType.fromChars? p3 with
                | none => .error "invalid option type"
                | some t => .ok (.Options d stk t)
    else .error "invalid instrument type"

/-- Instrument (`defs.rs` lines 149–155). -/
structure Inst where
  exch : Exch
  base_ccy : Ccy
  quote_ccy : Ccy
  inst_type : InstType
  deriving DecidableEq

/-- `impl ToString for Inst` (`defs.rs` lines 157–167): the dotted
canonical form `Exch.Base.Quote.TypeEncoding`. -/
def Inst.toChars (i : Inst) : List Char :=
  i.exch.chars ++ '.' :: i.base_ccy.chars ++ '.' :: i.quote_ccy.chars
    ++ '.' :: i.inst_type.toChars

/-- `impl TryFrom<&str> for Inst` (`defs.rs` lines 169–196): split on
`.`, require exactly four parts, decode each part (an inner
`InstType` error is replaced by `"invalid instrument type"`). -/
def Inst.tryFrom (cs : List Char) : Except String Inst :=
  match splitChar '.' cs with
  | [p0, p1, p2, p3] =>
    match Exch.fromChars? p0 with
    | none => .error "invalid exchange"
    | some exch =>
      match Ccy.fromChars? p1 with
      | none => .error "invalid base currency"
      | some base =>
        match Ccy.fromChars? p2 with
        | none => .error "invalid quote currency"
        | some quote =>
          match InstType.tryFrom p3 with
          | .error _ => .error "invalid instrument type"
          | .ok it => .ok ⟨exch, base, quote, it⟩
  | _ => .error "invalid instrument"

/-- `str_to_inst` (`parser.rs` lines 131–156): split the OKX wire form
on `-`; unknown currency tokens fall back to the generated default
(`unwrap_or_default()`, i.e. `Ccy::Unknown`); the type is dispatched on
token count and the `SWAP` suffix. `none` models a panic: the
out-of-bounds index for fewer than two tokens, the `unwrap()` of the
inner `InstType` parse, and the `unreachable!()` for token counts other
than 2, 3, 5. -/
def str_to_inst (cs : List Char) : Option Inst :=
  match splitChar '-' cs with
  | p0 :: p1 :: rest =>
    let base := (Ccy.fromChars? p0).getD .Unknown
    let quote := (Ccy.fromChars? p1).getD .Unknown
    let itO : Option InstType :=
      match rest with
      | [] => some .Spot
      | [p2] =>
        if p2 = "SWAP".data then some .Swap
        else (InstType.tryFrom ("Futures-".data ++ p2)).toOption
      | [p2, p3, p4] =>
        (InstType.tryFrom
          ("Options-".data ++ p2 ++ '-' :: p3 ++ '-' :: p4)).toOption
      | _ => none
    itO.map fun it => ⟨.Okx, base, quote, it⟩
  | _ => none

/-- `inst_to_str` (`parser.rs` lines 200–224): the OKX wire encoding.
`Margin` is rendered exactly like `Spot`. -/
def inst_to_str (i : Inst) : List Char :=
  match i.inst_type with
  | .Spot => i.base_ccy.chars ++ '-' :: i.quote_ccy.chars
  | .Margin => i.base_ccy.chars ++ '-' :: i.quote_ccy.chars
  | .Swap => i.base_ccy.chars ++ '-' :: i.quote_ccy.chars ++ "-SWAP".data
  | .Futures d =>
    i.base_ccy.chars ++ '-' :: i.quote_ccy.chars ++ '-' :: fmtYYMMDD d
  | .Options d stk t =>
    i.base_ccy.chars ++ '-' :: i.quote_ccy.chars ++ '-' :: fmtYYMMDD d
      ++ '-' :: intChars stk ++ '-' :: t.chars

/-- `str_to_ord_state` (`parser.rs` lines 190–198): the four wire
spellings the match recognises; `none` models the `unreachable!()`
fallthrough (a panic). -/
def str_to_ord_state (cs : List Char) : Option OrdState :=
  if cs = "live".data then some .Live
  else if cs = "filled".data then some .Filled
  else if cs = "canceled".data then some .Canceled
  else if cs = "partially_filled".data then some .PartiallyFilled
  else none

/-- `str_to_naive_datetime` (`parser.rs` / `ws.rs`): the string is
parsed as `i64` milliseconds with `unwrap_or_default()` (`0` on parse
failure). `NaiveDateTime::from_timestamp_millis` is modelled as the
identity on the millisecond value (its astronomical range guard is not
touched by any claim). -/
def str_to_naive_datetime (cs : List Char) : Int :=
  (parseIntChars? cs).getD 0

/-- `NewOrder` (`msgs.rs` lines 113–129); `f64` as `ℚ`, `i64` as `Int`. -/
structure NewOrder where
  inst : Inst
  cl_ord_id : Int
  side : Side
  ord_type : OrdType
  td_mode : TdMode
  px : ℚ
  sz : ℚ
  deriving DecidableEq

/-- `CancelOrder` (`msgs.rs` lines 131–137). -/
structure CancelOrder where
  inst : Inst
  cl_ord_id : Int
  deriving DecidableEq

/-- `ExecutionReport` (`msgs.rs` lines 139–175, plus the `ccy` field
set by `rest.rs` / `ws.rs`); timestamps as `Int` milliseconds. -/
structure ExecutionReport where
  c_time : Int
  u_time : Int
  inst : Inst
  ccy : Ccy
  ord_id : Int
  cl_ord_id : Int
  px : ℚ
  sz : ℚ
  notional_usd : ℚ
  ord_type : OrdType
  side : Side
  fill_px : ℚ
  fill_sz : ℚ
  acc_fill_sz : ℚ
  avg_px : ℚ
  state : OrdState
  lever : ℚ
  fee : ℚ
  deriving DecidableEq

/-- `CancelReject` (`msgs.rs` lines 177–185). -/
structure CancelReject where
  u_time : Int
  inst : Inst
  cl_ord_id : Int
  deriving DecidableEq

/-- `Depth` (`msgs.rs` lines 31–43); the `[(f64, f64); 5]` arrays are
lists whose length 5 is proved, levels as `ℚ` pairs. -/
structure Depth where
  inst : Inst
  exch_time : Int
  recv_time : Int
  asks : List (ℚ × ℚ)
  bids : List (ℚ × ℚ)
  deriving DecidableEq

/-- `Trade` (`msgs.rs` lines 45–59). -/
structure Trade where
  inst : Inst
  exch_time : Int
  recv_time : Int
  side : Side
  px : ℚ
  sz : ℚ
  deriving DecidableEq

/-- `BalanceReport` (`msgs.rs` lines 187–197). -/
structure BalanceReport where
  u_time : Int
  exch : Exch
  ccy : Ccy
  cash_bal : ℚ
  deriving DecidableEq

/-- `PositionReport` (`msgs.rs` lines 199–215). -/
structure PositionReport where
  u_time : Int
  inst : Inst
  mgn_mode : MgnMode
  pos : ℚ
  ccy : Ccy
  pos_ccy : Ccy
  avg_px : ℚ
  deriving DecidableEq

/-- The bus envelope `Msg` (`msgs.rs` lines 16–29). The market-data
variants not needed by any claim carry their structures unchanged;
`Ticker`/`FundingRate`/`OpenInterest` payloads are elided to keep the
tagged union's dispatch shape (no claim reads their fields). -/
inductive Msg
  | Depth (d : Depth)
  | Trade (t : Trade)
  | Ticker
  | FundingRate
  | OpenInterest
  | NewOrder (o : NewOrder)
  | CancelOrder (c : CancelOrder)
  | ExecutionReport (er : ExecutionReport)
  | CancelReject (cj : CancelReject)
  | BalanceReport (br : BalanceReport)
  | PositionReport (pr : PositionReport)
  | SigTerm
  deriving DecidableEq

/-- The OKX order/cancel REST response, restricted to the fields
`RestClient::post` reads: the overall `code` and `msg`, and the first
data entry's `sCode` and `sMsg`. -/
structure OkxRestResp where
  code : List Char
  msg : List Char
  sCode : List Char
  sMsg : List Char

/-- The decision logic of `RestClient::post` (`rest.rs` lines 95–119)
after the HTTP exchange: non-zero overall `code` fails with the
response's `msg`; otherwise a non-zero first-entry `sCode` fails with
that entry's `sMsg`; otherwise success. -/
def postResult (r : OkxRestResp) : Except (List Char) Unit :=
  if r.code ≠ "0".data then .error r.msg
  else if r.sCode = "0".data then .ok ()
  else .error r.sMsg

/-- One iteration of `RestClient::run` (`rest.rs` lines 30–76): `msg`
is the command popped from the bus, `outcome` the result of the
corresponding HTTP call (`send_order`/`cancel_order`), `ts` the local
clock reading; the returned list is what the loop pushes onto the bus
for this command. A failed `NewOrder` synthesizes one `Rejected`
`ExecutionReport` from the original request, a failed `CancelOrder`
one `CancelReject`; successes and other messages push nothing. -/
def restStep (ts : Int) (msg : Msg) (outcome : Except (List Char) Unit) :
    List Msg :=
  match msg with
  | .NewOrder req =>
    match outcome with
    | .ok _ => []
    | .error _ =>
      [.ExecutionReport
        { c_time := ts
          u_time := ts
          inst := req.inst
          ccy := .Unknown
          ord_id := 0
          cl_ord_id := req.cl_ord_id
          px := req.px
          sz := req.sz
          notional_usd := 0
          ord_type := req.ord_type
          side := req.side
          fill_px := 0
          fill_sz := 0
          acc_fill_sz := 0
          avg_px := 0
          state := .Rejected
          lever := 0
          fee := 0 }]
  | .CancelOrder req =>
    match outcome with
    | .ok _ => []
    | .error _ =>
      [.CancelReject { u_time := ts, inst := req.inst, cl_ord_id := req.cl_ord_id }]
  | _ => []

/-- Decimal number lexer standing in for `str::parse::<f64>()` on the
depth-frame price/size strings: optional minus sign, integer digits,
optional fractional digits, read exactly into `ℚ`. (Exponent forms and
rounding are not modelled; no claim depends on them, and `"0"` is
exact in both readings.) -/
def parseDecNonneg? (cs : List Char) : Option ℚ :=
  match splitChar '.' cs with
  | [ip] => (parseNatChars? ip).map fun n => (n : ℚ)
  | [ip, fp] =>
    match parseNatChars? ip, parseNatChars? fp with
    | some n, some f => some ((n : ℚ) + (f : ℚ) / ((10 : ℚ) ^ fp.length))
    | _, _ => none
  | _ => none

/-- Sign handling of the decimal lexer (see `parseDecNonneg?`). -/
def parseDec? (cs : List Char) : Option ℚ :=
  match cs with
  | '-' :: rest => (parseDecNonneg? rest).map Neg.neg
  | _ => parseDecNonneg? cs

/-- A `books5` data frame as read by `parse_books5` (`parser.rs` lines
41–75) and `deserialize_books5` (`ws.rs` lines 232–270): the `instId`
and `ts` strings and, per side, the list of levels, each level the pair
of its first two strings (the source reads `a[0]` and `a[1]`). -/
structure Books5Frame where
  instId : List Char
  ts : List Char
  asks : List (List Char × List Char)
  bids : List (List Char × List Char)

/-- Parse one depth level: both strings must be numbers (`unwrap`). -/
def parseLevel? (l : List Char × List Char) : Option (ℚ × ℚ) :=
  match parseDec? l.1, parseDec? l.2 with
  | some a, some b => some (a, b)
  | _, _ => none

/-- Parse a list of levels; any failure is the `unwrap` panic. -/
def parseLevels? : List (List Char × List Char) → Option (List (ℚ × ℚ))
  | [] => some []
  | l :: ls =>
    match parseLevel? l, parseLevels? ls with
    | some v, some vs => some (v :: vs)
    | _, _ => none

/-- The level-array construction of `parse_books5`/`deserialize_books5`:
start from `[(0.0, 0.0); 5]` and write the enumerated levels into their
slots. The caller passes at most five entries
(`.iter().enumerate().take(5)`). -/
def fillLevels (entries : List (ℚ × ℚ)) : List (ℚ × ℚ) :=
  (List.enumFrom 0 entries).foldl (fun acc p => acc.set p.1 p.2)
    (List.replicate 5 (0, 0))

/-- `parse_books5` (`parser.rs` lines 41–75) / `deserialize_books5`
(`ws.rs` lines 232–270): parse the first five levels of each side into
a zero-initialised five-slot array, decode the instrument and the
exchange timestamp; `now` is the local receive clock. `none` models the
panics (`unwrap` on a malformed level among the first five, or inside
`str_to_inst`). -/
def parse_books5 (now : Int) (f : Books5Frame) : Option Depth :=
  match parseLevels? (f.asks.take 5), parseLevels? (f.bids.take 5),
      str_to_inst f.instId with
  | some asksP, some bidsP, some inst =>
    some
      { inst := inst
        exch_time := str_to_naive_datetime f.ts
        recv_time := now
        asks := fillLevels asksP
        bids := fillLevels bidsP }
  | _, _, _ => none

/-- A concrete `books5` frame carrying three ask levels and five bid
levels (shaped like the repository's own test vector, with integral
prices). -/
def sampleFrame3 : Books5Frame where
  instId := "BCH-USDT-SWAP".data
  ts := "1670324386802".data
  asks := [("111".data, "55154".data), ("112".data, "53276".data),
    ("113".data, "72435".data)]
  bids := [("110".data, "57745".data), ("109".data, "57109".data),
    ("108".data, "69563".data), ("107".data, "71248".data),
    ("106".data, "65090".data)]

/-- The depth message `sampleFrame3` decodes to. -/
def sampleDepth3 : Depth where
  inst := ⟨.Okx, .BCH, .USDT, .Swap⟩
  exch_time := 1670324386802
  recv_time := 0
  asks := [(111, 55154), (112, 53276), (113, 72435), (0, 0), (0, 0)]
  bids := [(110, 57745), (109, 57109), (108, 69563), (107, 71248), (106, 65090)]

/-- A concrete new-order command used to evaluate the gateway paths. -/
def sampleNewOrder : NewOrder where
  inst := ⟨.Okx, .BTC, .USDT, .Swap⟩
  cl_ord_id := 42
  side := .Buy
  ord_type := .Limit
  td_mode := .Cross
  px := 30000
  sz := 1

/-- A concrete cancel command used to evaluate the gateway paths. -/
def sampleCancelOrder : CancelOrder where
  inst := ⟨.Okx, .BTC, .USDT, .Swap⟩
  cl_ord_id := 42

/-- An order command as consumed by the private client's loop. -/
inductive OCmd
  | new (o : NewOrder)
  | cancel (c : CancelOrder)
  deriving DecidableEq

/-- A wire frame sent by the private client: login/subscribe during the
handshake, or an order/cancel-order operation tagged with the minted
correlation id. -/
inductive WireCmd
  | login
  | subscribe
  | order (id : Nat) (o : NewOrder)
  | cancelOrder (id : Nat) (c : CancelOrder)
  deriving DecidableEq

/-- An input event of the private client's `Active`-state loop: an
outbound command popped from the bus, an inbound trade-result /
cancel-result acknowledgement frame (correlation id and exchange
success code), or any other inbound frame. -/
inductive PrivEvent
  | cmd (c : OCmd)
  | ack (id : Nat) (code : List Char)
  | other
  deriving DecidableEq

/-- Modelled from the spec: the private client's mutable loop state.
The command-handling half of the private streaming client is missing
from the snapshot (`mod.rs` calls `ws::PrivateClient::start(tx, rx)`,
but `ws.rs` only contains an older `PrivateWsClient` without an
outbound path); §4.4 describes it. `pending` is the correlation cache
from id to original command, `nextId` the monotonically-derived
fresh-id source ("current time in a fine-grained unit, unique per
in-flight command"). -/
structure PrivState where
  pending : List (Nat × OCmd)
  nextId : Nat
  deriving DecidableEq

/-- Modelled from the spec (§4.4): the synthesized terminal event for a
failed acknowledgement — a `Rejected` `ExecutionReport` carrying the
original instrument, side, price and size for a failed new-order, a
`CancelReject` for a failed cancel (the same shapes `rest.rs`
synthesizes). -/
def synthReject (ts : Int) : OCmd → Msg
  | .new req =>
    .ExecutionReport
      { c_time := ts
        u_time := ts
        inst := req.inst
        ccy := .Unknown
        ord_id := 0
        cl_ord_id := req.cl_ord_id
        px := req.px
        sz := req.sz
        notional_usd := 0
        ord_type := req.ord_type
        side := req.side
        fill_px := 0
        fill_sz := 0
        acc_fill_sz := 0
        avg_px := 0
        state := .Rejected
        lever := 0
        fee := 0 }
  | .cancel req =>
    .CancelReject { u_time := ts, inst := req.inst, cl_ord_id := req.cl_ord_id }

/-- Look up a correlation id in the pending cache. -/
def PrivState.lookup (st : PrivState) (id : Nat) : Option OCmd :=
  (st.pending.find? fun p => p.1 = id).map Prod.snd

/-- Remove a correlation id from the pending cache. -/
def PrivState.erase (st : PrivState) (id : Nat) : PrivState :=
  { st with pending := st.pending.filter fun p => ¬ p.1 = id }

/-- Modelled from the spec (§4.4, absent from the snapshot's `ws.rs`):
one `Active`-state step of the private client. On `NewOrder` /
`CancelOrder` from the bus: mint the fresh id `nextId`, send the wire
command, insert the original command into the cache keyed by that id.
On an acknowledgement: a matching entry is removed — silently on
success code `"0"`, with exactly one synthesized rejection otherwise;
an unmatched acknowledgement is ignored (logged, not fatal). Returns
the new state, the wire frames sent, and the messages pushed to the
bus, each paired with the correlation id that caused it. -/
def privStep (ts : Int) (st : PrivState) :
    PrivEvent → PrivState × List WireCmd × List (Nat × Msg)
  | .cmd c =>
    let wire :=
      match c with
      | .new o => WireCmd.order st.nextId o
      | .cancel k => WireCmd.cancelOrder st.nextId k
    (⟨(st.nextId, c) :: st.pending, st.nextId + 1⟩, [wire], [])
  | .ack id code =>
    match st.lookup id with
    | some c =>
      if code = "0".data then (st.erase id, [], [])
      else (st.erase id, [], [(id, synthReject ts c)])
    | none => (st, [], [])
  | .other => (st, [], [])

/-- Run the private loop over an event trace, accumulating the
synthesized bus messages (tagged with their correlation ids). -/
def privRun (ts : Int) (st : PrivState) : List PrivEvent → List (Nat × Msg)
  | [] => []
  | e :: evs =>
    let r := privStep ts st e
    r.2.2 ++ privRun ts r.1 evs

/-- The correlation-cache ownership invariant of the private loop: the
cached ids are pairwise distinct and all below the fresh-id source. -/
def PrivInv (st : PrivState) : Prop :=
  (st.pending.map Prod.fst).Nodup ∧ ∀ k ∈ st.pending.map Prod.fst, k < st.nextId

/-- A date is wire-encodable when it is a valid calendar date whose
year the two-digit `%y` rendering can represent (the parse pivot maps
back onto 1969–2068). -/
def Date.wf (dt : Date) : Bool :=
  dt.valid && 1969 ≤ dt.y && dt.y ≤ 2068

/-- The instrument types whose string encodings decode back: dated
variants need a `%y%m%d`-representable valid date, options additionally
a nonnegative strike (a negative strike's minus sign collides with the
field separator). -/
def InstType.encodable : InstType → Bool
  | .Spot => true
  | .Margin => true
  | .Swap => true
  | .Futures d => d.wf
  | .Options d stk _ => d.wf && 0 ≤ stk

/-! ## Helper lemmas: the split combinator -/

/-- A separator-free chunk splits into itself alone. -/
theorem splitChar_of_not_mem {sep : Char} {cs : List Char} (h : sep ∉ cs) :
    splitChar sep cs = [cs] := by
  induction cs with
  | nil => rfl
  | cons c rest ih =>
    have hcs : c ≠ sep := fun hc => h (hc ▸ List.mem_cons_self c rest)
    have hrest : sep ∉ rest := fun hr => h (List.mem_cons_of_mem c hr)
    simp [splitChar, hcs, ih hrest]

/-- Splitting peels off a leading separator-free chunk. -/
theorem splitChar_append {sep : Char} {a : List Char} (rest : List Char)
    (h : sep ∉ a) : splitChar sep (a ++ sep :: rest) = a :: splitChar sep rest := by
  induction a with
  | nil => simp [splitChar]
  | cons c a ih =>
    have hcs : c ≠ sep := fun hc => h (hc ▸ List.mem_cons_self c a)
    have ha : sep ∉ a := fun hr => h (List.mem_cons_of_mem c hr)
    simp [splitChar, hcs, ih ha]

/-! ## Helper lemmas: digits and numbers -/

/-- The decimal digit characters are digits. -/
theorem digitChar_isDigit {n : Nat} (h : n < 10) :
    (Nat.digitChar n).isDigit = true := by
  interval_cases n <;> decide

/-- Reading back a decimal digit character recovers its value. -/
theorem digVal_digitChar {n : Nat} (h : n < 10) :
    digVal (Nat.digitChar n) = n := by
  interval_cases n <;> decide

/-- A digit character is not a minus sign. -/
theorem isDigit_ne_dash {c : Char} (h : c.isDigit = true) : c ≠ '-' := by
  intro hc
  subst hc
  exact absurd h (by decide)

/-- A digit character is not a dot. -/
theorem isDigit_ne_dot {c : Char} (h : c.isDigit = true) : c ≠ '.' := by
  intro hc
  subst hc
  exact absurd h (by decide)

/-- A digit character is not a plus sign. -/
theorem isDigit_ne_plus {c : Char} (h : c.isDigit = true) : c ≠ '+' := by
  intro hc
  subst hc
  exact absurd h (by decide)

/-- Every month has at most 31 days. -/
theorem daysInMonth_le_31 (y m : Nat) : daysInMonth y m ≤ 31 := by
  unfold daysInMonth
  split_ifs <;> omega

/-- Field bounds implied by date validity. -/
theorem Date.valid_bounds {dt : Date} (hv : dt.valid = true) :
    1 ≤ dt.m ∧ dt.m ≤ 12 ∧ 1 ≤ dt.d ∧ dt.d ≤ 31 := by
  have h31 := daysInMonth_le_31 dt.y dt.m
  unfold Date.valid at hv
  simp only [Bool.and_eq_true, decide_eq_true_eq] at hv
  omega

/-- Both characters of a zero-padded two-digit field are digits. -/
theorem pad2_isDigit {n : Nat} (h : n < 100) : ∀ c ∈ pad2 n, c.isDigit = true := by
  intro c hc
  have h1 : n / 10 < 10 := by omega
  have h2 : n % 10 < 10 := by omega
  have hc2 : c = Nat.digitChar (n / 10) ∨ c = Nat.digitChar (n % 10) := by
    simpa [pad2] using hc
  rcases hc2 with rfl | rfl
  · exact digitChar_isDigit h1
  · exact digitChar_isDigit h2

/-- The scanner consumes exactly a zero-padded two-digit field. -/
theorem scan2_pad2 {n : Nat} (h : n < 100) (rest : List Char) :
    scan2 (pad2 n ++ rest) = some (n, rest) := by
  have h1 : n / 10 < 10 := by omega
  have h2 : n % 10 < 10 := by omega
  simp [pad2, scan2, digitChar_isDigit h1, digitChar_isDigit h2,
    digVal_digitChar h1, digVal_digitChar h2]
  omega

/-- The associativity normal form of the date rendering. -/
theorem fmtYYMMDD_eq (dt : Date) :
    fmtYYMMDD dt = (pad2 (dt.y % 100) ++ pad2 dt.m) ++ pad2 dt.d := rfl

/-- Every character of a valid date's rendering is a digit. -/
theorem fmtYYMMDD_isDigit {dt : Date} (hv : dt.valid = true) :
    ∀ c ∈ fmtYYMMDD dt, c.isDigit = true := by
  obtain ⟨hm1, hm2, hd1, hd2⟩ := Date.valid_bounds hv
  intro c hc
  rw [fmtYYMMDD_eq] at hc
  rcases List.mem_append.1 hc with hc | hc
  · rcases List.mem_append.1 hc with hc | hc
    · exact pad2_isDigit (by omega) c hc
    · exact pad2_isDigit (by omega) c hc
  · exact pad2_isDigit (by omega) c hc

/-- No minus sign occurs in a valid date's rendering. -/
theorem fmtYYMMDD_no_dash {dt : Date} (hv : dt.valid = true) :
    '-' ∉ fmtYYMMDD dt :=
  fun hmem => isDigit_ne_dash (fmtYYMMDD_isDigit hv '-' hmem) rfl

/-- No dot occurs in a valid date's rendering. -/
theorem fmtYYMMDD_no_dot {dt : Date} (hv : dt.valid = true) :
    '.' ∉ fmtYYMMDD dt :=
  fun hmem => isDigit_ne_dot (fmtYYMMDD_isDigit hv '.' hmem) rfl

/-- Parsing the `%y%m%d` rendering of a valid date whose year is
representable with a two-digit year (pivot range 1969–2068) recovers
the date. -/
theorem parseYYMMDD_fmtYYMMDD {dt : Date} (hv : dt.valid = true)
    (hy1 : 1969 ≤ dt.y) (hy2 : dt.y ≤ 2068) :
    parseYYMMDD (fmtYYMMDD dt) = some dt := by
  obtain ⟨y, m, d⟩ := dt
  obtain ⟨hm1, hm2, hd1, hd2⟩ := Date.valid_bounds hv
  simp only at hm1 hm2 hd1 hd2 hy1 hy2
  have hyy : y % 100 < 100 := by omega
  have hpad : fmtYYMMDD ⟨y, m, d⟩ = pad2 (y % 100) ++ (pad2 m ++ (pad2 d ++ [])) := by
    rw [fmtYYMMDD_eq]
    simp [List.append_assoc]
  have e1 : scan2 (pad2 (y % 100) ++ (pad2 m ++ (pad2 d ++ []))) =
      some (y % 100, pad2 m ++ (pad2 d ++ [])) := scan2_pad2 hyy _
  have e2 : scan2 (pad2 m ++ (pad2 d ++ [])) = some (m, pad2 d ++ []) :=
    scan2_pad2 (by omega) _
  have e3 : scan2 (pad2 d ++ []) = some (d, []) := scan2_pad2 (by omega) _
  have hy : (if y % 100 ≤ 68 then 2000 + y % 100 else 1900 + y % 100) = y := by
    split <;> omega
  simp only [parseYYMMDD, hpad, e1, e2, e3, if_pos, hy]
  simp [hv]
/-- The digit renderer ignores the fuel as long as it dominates the
number. -/
theorem natDigitsRevFuel_congr :
    ∀ f1 f2 n : Nat, n ≤ f1 → n ≤ f2 →
      natDigitsRevFuel f1 n = natDigitsRevFuel f2 n := by
  intro f1 f2 n
  induction n using Nat.strong_induction_on generalizing f1 f2 with
  | _ n ih =>
    intro h1 h2
    match f1, f2 with
    | 0, 0 => rfl
    | 0, g2 + 1 =>
      have hn : n = 0 := Nat.le_zero.1 h1
      simp [natDigitsRevFuel, hn]
    | g1 + 1, 0 =>
      have hn : n = 0 := Nat.le_zero.1 h2
      simp [natDigitsRevFuel, hn]
    | g1 + 1, g2 + 1 =>
      by_cases hn : n = 0
      · simp [natDigitsRevFuel, hn]
      · have hlt : n / 10 < n := Nat.div_lt_self (Nat.pos_of_ne_zero hn) (by decide)
        simp only [natDigitsRevFuel, hn, if_false]
        rw [ih (n / 10) hlt g1 g2 (by omega) (by omega)]

/-- Unfolding equation of the digit renderer. -/
theorem natDigitsRev_unfold (n : Nat) :
    natDigitsRev n =
      if n = 0 then [] else Nat.digitChar (n % 10) :: natDigitsRev (n / 10) := by
  unfold natDigitsRev
  match n with
  | 0 => rfl
  | m + 1 =>
    simp only [natDigitsRevFuel, Nat.succ_ne_zero, if_false]
    rw [natDigitsRevFuel_congr m ((m + 1) / 10) ((m + 1) / 10) (by omega) (by omega)]

/-- All rendered digits are digit characters. -/
theorem natDigitsRev_isDigit (n : Nat) : ∀ c ∈ natDigitsRev n, c.isDigit = true := by
  induction n using Nat.strong_induction_on with
  | _ n ih =>
    intro c hc
    rw [natDigitsRev_unfold] at hc
    by_cases hn : n = 0
    · simp [hn] at hc
    · simp only [hn, if_false, List.mem_cons] at hc
      rcases hc with rfl | hc
      · exact digitChar_isDigit (Nat.mod_lt _ (by decide))
      · exact ih (n / 10) (Nat.div_lt_self (Nat.pos_of_ne_zero hn) (by decide)) c hc

/-- All characters of a decimal rendering are digits. -/
theorem natChars_isDigit (n : Nat) : ∀ c ∈ natChars n, c.isDigit = true := by
  intro c hc
  unfold natChars at hc
  by_cases hn : n = 0
  · simp [hn] at hc
    simp [hc]
  · simp only [hn, if_false, List.mem_reverse] at hc
    exact natDigitsRev_isDigit n c hc

/-- A decimal rendering is never empty. -/
theorem natChars_ne_nil (n : Nat) : natChars n ≠ [] := by
  unfold natChars
  by_cases hn : n = 0
  · simp [hn]
  · simp only [hn, if_false]
    rw [natDigitsRev_unfold]
    simp [hn]

/-- Reading the rendered digits back, most significant first. -/
theorem foldl_natDigitsRev (n : Nat) :
    (natDigitsRev n).reverse.foldl (fun a c => 10 * a + digVal c) 0 = n := by
  induction n using Nat.strong_induction_on with
  | _ n ih =>
    rw [natDigitsRev_unfold]
    by_cases hn : n = 0
    · simp [hn]
    · simp only [hn, if_false, List.reverse_cons, List.foldl_append, List.foldl_cons,
        List.foldl_nil]
      rw [ih (n / 10) (Nat.div_lt_self (Nat.pos_of_ne_zero hn) (by decide))]
      rw [digVal_digitChar (Nat.mod_lt _ (by decide))]
      omega

/-- The digit-string reader inverts the decimal rendering. -/
theorem parseNatChars_natChars (n : Nat) : parseNatChars? (natChars n) = some n := by
  unfold parseNatChars?
  rw [if_neg (natChars_ne_nil n)]
  have hall : (natChars n).all Char.isDigit = true := by
    rw [List.all_eq_true]
    exact natChars_isDigit n
  rw [if_pos hall]
  by_cases hn : n = 0
  · simp [hn, natChars]
    decide
  · unfold natChars
    simp only [hn, if_false]
    rw [foldl_natDigitsRev n]

/-- The head of a decimal rendering is a digit, hence not a sign. -/
theorem natChars_head_not_sign (n : Nat) :
    ∀ c rest, natChars n = c :: rest → ¬ c = '+' ∧ ¬ c = '-' := by
  intro c rest h
  have hc : c.isDigit = true := natChars_isDigit n c (h ▸ List.mem_cons_self c rest)
  exact ⟨isDigit_ne_plus hc, isDigit_ne_dash hc⟩

/-- `i64` parsing inverts the decimal rendering of a nonnegative value. -/
theorem parseIntChars_intChars {k : Int} (h : 0 ≤ k) :
    parseIntChars? (intChars k) = some k := by
  have hic : intChars k = natChars k.natAbs := by
    unfold intChars
    rw [if_neg (by omega)]
  rw [hic]
  rcases hcs : natChars k.natAbs with _ | ⟨c, rest⟩
  · exact absurd hcs (natChars_ne_nil _)
  · obtain ⟨hplus, hdash⟩ := natChars_head_not_sign k.natAbs c rest hcs
    unfold parseIntChars?
    simp only [hplus, hdash, if_false]
    rw [← hcs, parseNatChars_natChars]
    simp [Int.natAbs_of_nonneg h]

/-- No minus sign occurs in the rendering of a nonnegative `i64`. -/
theorem intChars_no_dash {k : Int} (h : 0 ≤ k) : '-' ∉ intChars k := by
  intro hmem
  have hic : intChars k = natChars k.natAbs := by
    unfold intChars
    rw [if_neg (by omega)]
  rw [hic] at hmem
  exact isDigit_ne_dash (natChars_isDigit _ '-' hmem) rfl

/-- No dot occurs in the rendering of a nonnegative `i64`. -/
theorem intChars_no_dot {k : Int} (h : 0 ≤ k) : '.' ∉ intChars k := by
  intro hmem
  have hic : intChars k = natChars k.natAbs := by
    unfold intChars
    rw [if_neg (by omega)]
  rw [hic] at hmem
  exact isDigit_ne_dot (natChars_isDigit _ '.' hmem) rfl

/-! ## Helper lemmas: the enumerations -/

/-- `EnumString` inverts `Display` for `Ccy`. -/
theorem ccyFromChars_chars (c : Ccy) : Ccy.fromChars? c.chars = some c := by
  cases c <;> decide

/-- No currency name contains the wire separator. -/
theorem ccyChars_no_dash (c : Ccy) : '-' ∉ c.chars := by
  cases c <;> decide

/-- No currency name contains the canonical separator. -/
theorem ccyChars_no_dot (c : Ccy) : '.' ∉ c.chars := by
  cases c <;> decide

/-- `EnumString` inverts `Display` for `Exch`. -/
theorem exchFromChars_chars (e : Exch) : Exch.fromChars? e.chars = some e := by
  cases e <;> decide

/-- No exchange name contains the canonical separator. -/
theorem exchChars_no_dot (e : Exch) : '.' ∉ e.chars := by
  cases e <;> decide

/-- `EnumString` inverts `Display` for `OptType`. -/
theorem optTypeFromChars_chars (t : OptType) : OptType.fromChars? t.chars = some t := by
  cases t <;> decide

/-- No put/call code contains the wire separator. -/
theorem optTypeChars_no_dash (t : OptType) : '-' ∉ t.chars := by
  cases t <;> decide

/-- No put/call code contains the canonical separator. -/
theorem optTypeChars_no_dot (t : OptType) : '.' ∉ t.chars := by
  cases t <;> decide

/-! ## Helper lemmas: the instrument-type codec -/

/-- Unpacking `Date.wf`. -/
theorem Date.wf_spec {dt : Date} (h : dt.wf = true) :
    dt.valid = true ∧ 1969 ≤ dt.y ∧ dt.y ≤ 2068 := by
  unfold Date.wf at h
  simp only [Bool.and_eq_true, decide_eq_true_eq] at h
  exact ⟨h.1.1, h.1.2, h.2⟩

/-- The type encoding of an encodable instrument type has no dot. -/
theorem InstType.toChars_no_dot {it : InstType} (h : it.encodable = true) :
    '.' ∉ it.toChars := by
  cases it with
  | Spot => decide
  | Margin => decide
  | Swap => decide
  | Futures d =>
    obtain ⟨hv, -, -⟩ := Date.wf_spec (by simpa [InstType.encodable] using h)
    intro hmem
    rcases List.mem_append.1 hmem with hc | hc
    · exact absurd hc (by decide)
    · exact fmtYYMMDD_no_dot hv hc
  | Options d stk t =>
    have h2 : d.wf = true ∧ 0 ≤ stk := by
      simpa [InstType.encodable, Bool.and_eq_true, decide_eq_true_eq] using h
    obtain ⟨hv, -, -⟩ := Date.wf_spec h2.1
    intro hmem
    simp only [InstType.toChars] at hmem
    rcases List.mem_append.1 hmem with hc | hc
    · rcases List.mem_append.1 hc with hc | hc
      · rcases List.mem_append.1 hc with hc | hc
        · exact absurd hc (by decide)
        · exact fmtYYMMDD_no_dot hv hc
      · rcases List.mem_cons.1 hc with hc | hc
        · exact absurd hc (by decide)
        · exact intChars_no_dot h2.2 hc
    · rcases List.mem_cons.1 hc with hc | hc
      · exact absurd hc (by decide)
      · exact optTypeChars_no_dot t hc

/-- Decoding inverts the canonical type encoding on encodable types. -/
theorem instTypeTryFrom_toChars {it : InstType} (h : it.encodable = true) :
    InstType.tryFrom it.toChars = .ok it := by
  cases it with
  | Spot => decide
  | Margin => decide
  | Swap => decide
  | Futures d =>
    obtain ⟨hv, hy1, hy2⟩ := Date.wf_spec (by simpa [InstType.encodable] using h)
    have hT : InstType.toChars (.Futures d) =
        "Futures".data ++ '-' :: fmtYYMMDD d := by
      simp only [InstType.toChars]
      rfl
    have hsplit : splitChar '-' (InstType.toChars (.Futures d)) =
        ["Futures".data, fmtYYMMDD d] := by
      rw [hT, splitChar_append _ (by decide), splitChar_of_not_mem (fmtYYMMDD_no_dash hv)]
    simp only [InstType.tryFrom, hsplit]
    simp [parseYYMMDD_fmtYYMMDD hv hy1 hy2]
  | Options d stk t =>
    have h2 : d.wf = true ∧ 0 ≤ stk := by
      simpa [InstType.encodable, Bool.and_eq_true, decide_eq_true_eq] using h
    obtain ⟨hv, hy1, hy2⟩ := Date.wf_spec h2.1
    have hT : InstType.toChars (.Options d stk t) =
        "Options".data ++ '-' ::
          (fmtYYMMDD d ++ '-' :: (intChars stk ++ '-' :: t.chars)) := by
      simp only [InstType.toChars]
      have hlit : (['O', 'p', 't', 'i', 'o', 'n', 's', '-'] : List Char) =
          "Options".data ++ ['-'] := rfl
      rw [hlit]
      simp [List.append_assoc]
    have hsplit : splitChar '-' (InstType.toChars (.Options d stk t)) =
        ["Options".data, fmtYYMMDD d, intChars stk, t.chars] := by
      rw [hT, splitChar_append _ (by decide),
        splitChar_append _ (fmtYYMMDD_no_dash hv),
        splitChar_append _ (intChars_no_dash h2.2),
        splitChar_of_not_mem (optTypeChars_no_dash t)]
    simp only [InstType.tryFrom, hsplit]
    simp [parseYYMMDD_fmtYYMMDD hv hy1 hy2, parseIntChars_intChars h2.2,
      optTypeFromChars_chars]

/-- Decoding inverts the canonical dotted encoding on instruments with
an encodable type. -/
theorem instTryFrom_toChars {i : Inst} (h : i.inst_type.encodable = true) :
    Inst.tryFrom i.toChars = .ok i := by
  have hT : i.toChars = i.exch.chars ++ '.' ::
      (i.base_ccy.chars ++ '.' :: (i.quote_ccy.chars ++ '.' :: i.inst_type.toChars)) := by
    simp [Inst.toChars, List.append_assoc]
  have hsplit : splitChar '.' i.toChars =
      [i.exch.chars, i.base_ccy.chars, i.quote_ccy.chars, i.inst_type.toChars] := by
    rw [hT, splitChar_append _ (exchChars_no_dot _),
      splitChar_append _ (ccyChars_no_dot _), splitChar_append _ (ccyChars_no_dot _),
      splitChar_of_not_mem (InstType.toChars_no_dot h)]
  simp only [Inst.tryFrom, hsplit, exchFromChars_chars, ccyFromChars_chars,
    instTypeTryFrom_toChars h]

/-- The rendered date field is never the `SWAP` literal. -/
theorem fmtYYMMDD_ne_swap (d : Date) : fmtYYMMDD d ≠ "SWAP".data := by
  intro he
  have hl := congrArg List.length he
  simp [fmtYYMMDD, pad2] at hl

/-- Wire decoding inverts the wire encoding on OKX instruments whose
type is encodable and not `Margin` (which the wire form renders as
`Spot`). -/
theorem str_to_inst_inst_to_str {i : Inst} (hexch : i.exch = .Okx)
    (hm : i.inst_type ≠ .Margin) (h : i.inst_type.encodable = true) :
    str_to_inst (inst_to_str i) = some i := by
  obtain ⟨e, b, q, it⟩ := i
  simp only at hexch hm h
  subst hexch
  cases it with
  | Margin => exact absurd rfl hm
  | Spot =>
    have hsplit : splitChar '-' (inst_to_str ⟨.Okx, b, q, .Spot⟩) = [b.chars, q.chars] := by
      simp only [inst_to_str]
      rw [splitChar_append _ (ccyChars_no_dash b),
        splitChar_of_not_mem (ccyChars_no_dash q)]
    simp [str_to_inst, hsplit, ccyFromChars_chars]
  | Swap =>
    have hT : inst_to_str ⟨.Okx, b, q, .Swap⟩ =
        b.chars ++ '-' :: (q.chars ++ '-' :: "SWAP".data) := by
      simp only [inst_to_str]
      simp [List.append_assoc]
    have hsplit : splitChar '-' (inst_to_str ⟨.Okx, b, q, .Swap⟩) =
        [b.chars, q.chars, "SWAP".data] := by
      rw [hT, splitChar_append _ (ccyChars_no_dash b),
        splitChar_append _ (ccyChars_no_dash q),
        splitChar_of_not_mem (by decide)]
    simp [str_to_inst, hsplit, ccyFromChars_chars]
  | Futures d =>
    obtain ⟨hv, hy1, hy2⟩ := Date.wf_spec (by simpa [InstType.encodable] using h)
    have hT : inst_to_str ⟨.Okx, b, q, .Futures d⟩ =
        b.chars ++ '-' :: (q.chars ++ '-' :: fmtYYMMDD d) := by
      simp only [inst_to_str]
      simp [List.append_assoc]
    have hsplit : splitChar '-' (inst_to_str ⟨.Okx, b, q, .Futures d⟩) =
        [b.chars, q.chars, fmtYYMMDD d] := by
      rw [hT, splitChar_append _ (ccyChars_no_dash b),
        splitChar_append _ (ccyChars_no_dash q),
        splitChar_of_not_mem (fmtYYMMDD_no_dash hv)]
    have hrw : ("Futures-".data ++ fmtYYMMDD d : List Char) =
        InstType.toChars (.Futures d) := rfl
    simp only [str_to_inst, hsplit, if_neg (fmtYYMMDD_ne_swap d), hrw,
      instTypeTryFrom_toChars h, Except.toOption, ccyFromChars_chars]
    rfl
  | Options d stk t =>
    have h2 : d.wf = true ∧ 0 ≤ stk := by
      simpa [InstType.encodable, Bool.and_eq_true, decide_eq_true_eq] using h
    obtain ⟨hv, hy1, hy2⟩ := Date.wf_spec h2.1
    have hT : inst_to_str ⟨.Okx, b, q, .Options d stk t⟩ =
        b.chars ++ '-' :: (q.chars ++ '-' ::
          (fmtYYMMDD d ++ '-' :: (intChars stk ++ '-' :: t.chars))) := by
      simp only [inst_to_str]
      simp [List.append_assoc]
    have hsplit : splitChar '-' (inst_to_str ⟨.Okx, b, q, .Options d stk t⟩) =
        [b.chars, q.chars, fmtYYMMDD d, intChars stk, t.chars] := by
      rw [hT, splitChar_append _ (ccyChars_no_dash b),
        splitChar_append _ (ccyChars_no_dash q),
        splitChar_append _ (fmtYYMMDD_no_dash hv),
        splitChar_append _ (intChars_no_dash h2.2),
        splitChar_of_not_mem (optTypeChars_no_dash t)]
    have hrw : ("Options-".data ++ fmtYYMMDD d ++ '-' :: intChars stk
        ++ '-' :: t.chars : List Char) = InstType.toChars (.Options d stk t) := rfl
    simp only [str_to_inst, hsplit, hrw, instTypeTryFrom_toChars h, Except.toOption,
      ccyFromChars_chars]
    rfl

/-- Splitting a two-token wire string. -/
theorem splitChar_wire2 {b q : List Char} (hb : '-' ∉ b) (hq : '-' ∉ q) :
    splitChar '-' (b ++ '-' :: q) = [b, q] := by
  rw [splitChar_append _ hb, splitChar_of_not_mem hq]

/-- Splitting a three-token wire string. -/
theorem splitChar_wire3 {b q r : List Char} (hb : '-' ∉ b) (hq : '-' ∉ q)
    (hr : '-' ∉ r) : splitChar '-' (b ++ '-' :: (q ++ '-' :: r)) = [b, q, r] := by
  rw [splitChar_append _ hb, splitChar_append _ hq, splitChar_of_not_mem hr]

/-- Splitting a four-token wire string. -/
theorem splitChar_wire4 {b q r s : List Char} (hb : '-' ∉ b) (hq : '-' ∉ q)
    (hr : '-' ∉ r) (hs : '-' ∉ s) :
    splitChar '-' (b ++ '-' :: (q ++ '-' :: (r ++ '-' :: s))) = [b, q, r, s] := by
  rw [splitChar_append _ hb, splitChar_append _ hq, splitChar_append _ hr,
    splitChar_of_not_mem hs]

/-- Splitting a five-token wire string. -/
theorem splitChar_wire5 {b q r s t : List Char} (hb : '-' ∉ b) (hq : '-' ∉ q)
    (hr : '-' ∉ r) (hs : '-' ∉ s) (ht : '-' ∉ t) :
    splitChar '-' (b ++ '-' :: (q ++ '-' :: (r ++ '-' :: (s ++ '-' :: t)))) =
      [b, q, r, s, t] := by
  rw [splitChar_append _ hb, splitChar_append _ hq, splitChar_append _ hr,
    splitChar_append _ hs, splitChar_of_not_mem ht]

/-! ## Claim C1 -/

/-- C1 (counterexample): the wire round-trip fails on the `Margin`
variant — `inst_to_str` renders `Okx BTC/USDT Margin` exactly like the
spot instrument, so `str_to_inst` returns the `Spot` instrument, not
the original: the claimed identity `str_to_inst (inst_to_str inst) =
inst` is false at this instrument even though its currencies are known
codes and it carries no date. -/
theorem c1_margin_counterexample :
    str_to_inst (inst_to_str ⟨.Okx, .BTC, .USDT, .Margin⟩) =
        some ⟨.Okx, .BTC, .USDT, .Spot⟩ ∧
      str_to_inst (inst_to_str ⟨.Okx, .BTC, .USDT, .Margin⟩) ≠
        some ⟨.Okx, .BTC, .USDT, .Margin⟩ := by
  decide

/-- C1 (amended): for every OKX instrument whose currencies are known
codes, whose type is not `Margin`, and whose type is encodable (dated
variants carry a valid date with a two-digit-representable year,
options a nonnegative strike), decoding the wire-form encoding returns
the original instrument: `str_to_inst (inst_to_str inst) = some inst`.
(`Margin` is excluded because its wire form coincides with `Spot`;
non-OKX instruments are excluded because the wire form does not encode
the exchange.) -/
theorem c1_wire_roundtrip (i : Inst) (hexch : i.exch = .Okx)
    (hb : i.base_ccy ≠ .Unknown) (hq : i.quote_ccy ≠ .Unknown)
    (hm : i.inst_type ≠ .Margin) (henc : i.inst_type.encodable = true) :
    str_to_inst (inst_to_str i) = some i :=
  str_to_inst_inst_to_str hexch hm henc

/-- C1 witness: the round-trip at a concrete dated future. -/
theorem c1_wire_roundtrip_witness :
    str_to_inst (inst_to_str ⟨.Okx, .BTC, .USDT, .Futures ⟨2023, 4, 21⟩⟩) =
      some ⟨.Okx, .BTC, .USDT, .Futures ⟨2023, 4, 21⟩⟩ :=
  c1_wire_roundtrip ⟨.Okx, .BTC, .USDT, .Futures ⟨2023, 4, 21⟩⟩ rfl
    (by decide) (by decide) (by decide) (by decide)

/-! ## Claim C5 -/

/-- C5 (counterexample): the canonical codec pair is not a bijection on
all instruments with known exchange and currency codes and a
representable date: at the options instrument with strike `-1` the
encoding `Okx.BTC.USDT.Options-230421--1-C` fails to decode (the
strike's minus sign collides with the type encoding's field separator),
so `Inst.tryFrom (inst.toChars) ≠ .ok inst`. -/
theorem c5_negative_strike_counterexample :
    Inst.tryFrom (Inst.toChars ⟨.Okx, .BTC, .USDT, .Options ⟨2023, 4, 21⟩ (-1) .C⟩) =
        .error "invalid instrument type" ∧
      Inst.tryFrom (Inst.toChars ⟨.Okx, .BTC, .USDT, .Options ⟨2023, 4, 21⟩ (-1) .C⟩) ≠
        .ok ⟨.Okx, .BTC, .USDT, .Options ⟨2023, 4, 21⟩ (-1) .C⟩ := by
  decide

/-- C5 (amended): for every instrument whose type is encodable (valid
date with two-digit-representable year, nonnegative strike), the
canonical dotted codec round-trips in both directions:
`Inst.tryFrom inst.toChars = .ok inst`, and re-encoding the decode of
the produced canonical string yields that string character for
character. (All five type variants round-trip here, `Margin`
included; the amendment only excludes negative strikes.) -/
theorem c5_canonical_roundtrip (i : Inst) (henc : i.inst_type.encodable = true) :
    Inst.tryFrom i.toChars = .ok i ∧
      (Inst.tryFrom i.toChars).map Inst.toChars = .ok i.toChars := by
  have h1 := instTryFrom_toChars henc
  exact ⟨h1, by rw [h1]; rfl⟩

/-- C5 witness: the canonical round-trip at a concrete margin
instrument and at a concrete option. -/
theorem c5_canonical_roundtrip_witness :
    Inst.tryFrom (Inst.toChars ⟨.Okx, .ETH, .USD, .Margin⟩) =
        .ok ⟨.Okx, .ETH, .USD, .Margin⟩ ∧
      Inst.tryFrom (Inst.toChars ⟨.Okx, .BTC, .USDT, .Options ⟨2023, 4, 21⟩ 10000 .C⟩) =
        .ok ⟨.Okx, .BTC, .USDT, .Options ⟨2023, 4, 21⟩ 10000 .C⟩ :=
  ⟨(c5_canonical_roundtrip ⟨.Okx, .ETH, .USD, .Margin⟩ (by decide)).1,
    (c5_canonical_roundtrip ⟨.Okx, .BTC, .USDT, .Options ⟨2023, 4, 21⟩ 10000 .C⟩
      (by decide)).1⟩

/-! ## Claim C9 -/

/-- C9 (counterexample): the order-state parser does not cover all five
states of the data model: at the wire spelling `"rejected"` the match
has no arm and the `unreachable!()` panic branch is taken (modelled by
`none`), refuting the claim that each of the five spellings returns its
corresponding `OrdState`. -/
theorem c9_rejected_counterexample : str_to_ord_state "rejected".data = none := by
  decide

/-- C9 (amended): the order-state parser maps exactly the four wire
spellings `live`, `partially_filled`, `filled`, `canceled` to their
`OrdState` values; the fifth state of the data model, `Rejected`, has
no wire arm — `"rejected"` (like any other string) falls into the
`unreachable!()` panic branch. `Rejected` reports arise only from
locally synthesized rejections, never from this parser. -/
theorem c9_ord_state_map :
    str_to_ord_state "live".data = some .Live ∧
      str_to_ord_state "partially_filled".data = some .PartiallyFilled ∧
      str_to_ord_state "filled".data = some .Filled ∧
      str_to_ord_state "canceled".data = some .Canceled ∧
      str_to_ord_state "rejected".data = none := by
  decide

/-- Normal form of a reconstructed futures type string. -/
theorem futures_chars_eq (p1 : List Char) :
    "Futures-".data ++ p1 = "Futures".data ++ '-' :: p1 := rfl

/-- The type parser on a reconstructed futures string with a parsable
date field. -/
theorem tryFrom_futures_ok {p1 : List Char} {d : Date} (h1 : '-' ∉ p1)
    (hp : parseYYMMDD p1 = some d) :
    InstType.tryFrom ("Futures-".data ++ p1) = .ok (.Futures d) := by
  have hsplit : splitChar '-' ("Futures-".data ++ p1) = ["Futures".data, p1] := by
    rw [futures_chars_eq, splitChar_append _ (by decide), splitChar_of_not_mem h1]
  simp only [InstType.tryFrom, hsplit]
  simp [hp]

/-- The type parser identifies a malformed date field. -/
theorem tryFrom_futures_err {p1 : List Char} (h1 : '-' ∉ p1)
    (hp : parseYYMMDD p1 = none) :
    InstType.tryFrom ("Futures-".data ++ p1) = .error "invalid expiration date" := by
  have hsplit : splitChar '-' ("Futures-".data ++ p1) = ["Futures".data, p1] := by
    rw [futures_chars_eq, splitChar_append _ (by decide), splitChar_of_not_mem h1]
  simp only [InstType.tryFrom, hsplit]
  simp [hp]

/-- Normal form of a reconstructed options type string. -/
theorem options_chars_eq (p2 p3 p4 : List Char) :
    "Options-".data ++ p2 ++ '-' :: p3 ++ '-' :: p4 =
      "Options".data ++ '-' :: (p2 ++ '-' :: (p3 ++ '-' :: p4)) := by
  have hlit : ("Options-".data : List Char) = "Options".data ++ ['-'] := rfl
  rw [hlit]
  simp [List.append_assoc]

/-- Splitting a reconstructed options type string. -/
theorem options_chars_split {p2 p3 p4 : List Char} (h2 : '-' ∉ p2) (h3 : '-' ∉ p3)
    (h4 : '-' ∉ p4) :
    splitChar '-' ("Options-".data ++ p2 ++ '-' :: p3 ++ '-' :: p4) =
      ["Options".data, p2, p3, p4] := by
  rw [options_chars_eq, splitChar_append _ (by decide), splitChar_append _ h2,
    splitChar_append _ h3, splitChar_of_not_mem h4]

/-- The type parser on a reconstructed options string with parsable
fields. -/
theorem tryFrom_options_ok {p2 p3 p4 : List Char} {d : Date} {k : Int} {t : OptType}
    (h2 : '-' ∉ p2) (h3 : '-' ∉ p3) (h4 : '-' ∉ p4)
    (hd : parseYYMMDD p2 = some d) (hk : parseIntChars? p3 = some k)
    (ht : OptType.fromChars? p4 = some t) :
    InstType.tryFrom ("Options-".data ++ p2 ++ '-' :: p3 ++ '-' :: p4) =
      .ok (.Options d k t) := by
  simp only [InstType.tryFrom, options_chars_split h2 h3 h4]
  simp [hd, hk, ht]

/-- The type parser identifies a non-integer strike field. -/
theorem tryFrom_options_err_strike {p2 p3 p4 : List Char} {d : Date}
    (h2 : '-' ∉ p2) (h3 : '-' ∉ p3) (h4 : '-' ∉ p4)
    (hd : parseYYMMDD p2 = some d) (hk : parseIntChars? p3 = none) :
    InstType.tryFrom ("Options-".data ++ p2 ++ '-' :: p3 ++ '-' :: p4) =
      .error "invalid strike" := by
  simp only [InstType.tryFrom, options_chars_split h2 h3 h4]
  simp [hd, hk]

/-- The type parser identifies an invalid put/call field. -/
theorem tryFrom_options_err_opt {p2 p3 p4 : List Char} {d : Date} {k : Int}
    (h2 : '-' ∉ p2) (h3 : '-' ∉ p3) (h4 : '-' ∉ p4)
    (hd : parseYYMMDD p2 = some d) (hk : parseIntChars? p3 = some k)
    (ht : OptType.fromChars? p4 = none) :
    InstType.tryFrom ("Options-".data ++ p2 ++ '-' :: p3 ++ '-' :: p4) =
      .error "invalid option type" := by
  simp only [InstType.tryFrom, options_chars_split h2 h3 h4]
  simp [hd, hk, ht]

/-- The type parser rejects an unknown leading type token. -/
theorem tryFrom_unknown_token {p0 : List Char} (h0 : '-' ∉ p0)
    (h1 : p0 ≠ "Spot".data) (h2 : p0 ≠ "Margin".data) (h3 : p0 ≠ "Swap".data)
    (h4 : p0 ≠ "Futures".data) (h5 : p0 ≠ "Options".data) :
    InstType.tryFrom p0 = .error "invalid instrument type" := by
  simp only [InstType.tryFrom, splitChar_of_not_mem h0]
  rw [if_neg h1, if_neg h2, if_neg h3, if_neg h4, if_neg h5]

/-- The wire decoder on a two-token string: always `Spot`, currency
tokens falling back to the generated default on parse failure. -/
theorem str_to_inst_two {b q : List Char} (hb : '-' ∉ b) (hq : '-' ∉ q) :
    str_to_inst (b ++ '-' :: q) =
      some ⟨.Okx, (Ccy.fromChars? b).getD .Unknown,
        (Ccy.fromChars? q).getD .Unknown, .Spot⟩ := by
  simp [str_to_inst, splitChar_wire2 hb hq]

/-- The wire decoder on a three-token string with the `SWAP` suffix. -/
theorem str_to_inst_three_swap {b q : List Char} (hb : '-' ∉ b) (hq : '-' ∉ q) :
    str_to_inst (b ++ '-' :: (q ++ '-' :: "SWAP".data)) =
      some ⟨.Okx, (Ccy.fromChars? b).getD .Unknown,
        (Ccy.fromChars? q).getD .Unknown, .Swap⟩ := by
  have hsw : ('-' : Char) ∉ "SWAP".data := by decide
  simp only [str_to_inst, splitChar_wire3 hb hq hsw]
  simp

/-- The wire decoder on a three-token string whose suffix parses as a
two-digit-year date: a dated future. -/
theorem str_to_inst_three_futures {b q p2 : List Char} {d : Date}
    (hb : '-' ∉ b) (hq : '-' ∉ q) (h2 : '-' ∉ p2)
    (hp : parseYYMMDD p2 = some d) :
    str_to_inst (b ++ '-' :: (q ++ '-' :: p2)) =
      some ⟨.Okx, (Ccy.fromChars? b).getD .Unknown,
        (Ccy.fromChars? q).getD .Unknown, .Futures d⟩ := by
  have hnone : parseYYMMDD "SWAP".data = none := by decide
  have hne : p2 ≠ "SWAP".data := by
    intro he
    rw [he, hnone] at hp
    exact Option.noConfusion hp
  simp only [str_to_inst, splitChar_wire3 hb hq h2]
  rw [if_neg hne, tryFrom_futures_ok h2 hp]
  rfl

/-- The wire decoder panics (`unwrap` of the failed inner parse) on a
three-token string whose suffix is neither `SWAP` nor a date. -/
theorem str_to_inst_three_bad_date {b q p2 : List Char}
    (hb : '-' ∉ b) (hq : '-' ∉ q) (h2 : '-' ∉ p2) (hne : p2 ≠ "SWAP".data)
    (hp : parseYYMMDD p2 = none) :
    str_to_inst (b ++ '-' :: (q ++ '-' :: p2)) = none := by
  simp only [str_to_inst, splitChar_wire3 hb hq h2]
  rw [if_neg hne, tryFrom_futures_err h2 hp]
  rfl

/-- The wire decoder hits the `unreachable!()` panic on a four-token
string. -/
theorem str_to_inst_four_tokens {b q r s : List Char} (hb : '-' ∉ b)
    (hq : '-' ∉ q) (hr : '-' ∉ r) (hs : '-' ∉ s) :
    str_to_inst (b ++ '-' :: (q ++ '-' :: (r ++ '-' :: s))) = none := by
  simp [str_to_inst, splitChar_wire4 hb hq hr hs]

/-- The wire decoder on a five-token string with parsable date, strike
and put/call fields: an option. -/
theorem str_to_inst_five {b q p2 p3 p4 : List Char} {d : Date} {k : Int}
    {t : OptType} (hb : '-' ∉ b) (hq : '-' ∉ q) (h2 : '-' ∉ p2) (h3 : '-' ∉ p3)
    (h4 : '-' ∉ p4) (hd : parseYYMMDD p2 = some d)
    (hk : parseIntChars? p3 = some k) (ht : OptType.fromChars? p4 = some t) :
    str_to_inst (b ++ '-' :: (q ++ '-' :: (p2 ++ '-' :: (p3 ++ '-' :: p4)))) =
      some ⟨.Okx, (Ccy.fromChars? b).getD .Unknown,
        (Ccy.fromChars? q).getD .Unknown, .Options d k t⟩ := by
  simp only [str_to_inst, splitChar_wire5 hb hq h2 h3 h4]
  rw [tryFrom_options_ok h2 h3 h4 hd hk ht]
  rfl

/-! ## Claim C6 -/

/-- C6 (confirmed): wire-form decoding dispatches on token count and
suffix — two tokens decode to `Spot`; three tokens ending in the
reserved literal `SWAP` decode to `Swap`; any other three-token string
decodes to `Futures` with the third token parsed as a two-digit-year
date; five tokens decode to `Options` with tokens 3–5 parsed as date,
integer strike and put/call code. In particular `BTC-USD-SWAP` decodes
to the swap, `BTC-USDT-230421` to `Futures(2023-04-21)`, and
`BTC-USDT-230421-10000-C` to `Options(2023-04-21, 10000, Call)`. -/
theorem c6_wire_dispatch :
    (∀ b q : List Char, '-' ∉ b → '-' ∉ q →
      str_to_inst (b ++ '-' :: q) =
        some ⟨.Okx, (Ccy.fromChars? b).getD .Unknown,
          (Ccy.fromChars? q).getD .Unknown, .Spot⟩) ∧
    (∀ b q : List Char, '-' ∉ b → '-' ∉ q →
      str_to_inst (b ++ '-' :: (q ++ '-' :: "SWAP".data)) =
        some ⟨.Okx, (Ccy.fromChars? b).getD .Unknown,
          (Ccy.fromChars? q).getD .Unknown, .Swap⟩) ∧
    (∀ (b q p2 : List Char) (d : Date), '-' ∉ b → '-' ∉ q → '-' ∉ p2 →
      parseYYMMDD p2 = some d →
      str_to_inst (b ++ '-' :: (q ++ '-' :: p2)) =
        some ⟨.Okx, (Ccy.fromChars? b).getD .Unknown,
          (Ccy.fromChars? q).getD .Unknown, .Futures d⟩) ∧
    (∀ (b q p2 p3 p4 : List Char) (d : Date) (k : Int) (t : OptType),
      '-' ∉ b → '-' ∉ q → '-' ∉ p2 → '-' ∉ p3 → '-' ∉ p4 →
      parseYYMMDD p2 = some d → parseIntChars? p3 = some k →
      OptType.fromChars? p4 = some t →
      str_to_inst (b ++ '-' :: (q ++ '-' :: (p2 ++ '-' :: (p3 ++ '-' :: p4)))) =
        some ⟨.Okx, (Ccy.fromChars? b).getD .Unknown,
          (Ccy.fromChars? q).getD .Unknown, .Options d k t⟩) ∧
    str_to_inst "BTC-USD-SWAP".data = some ⟨.Okx, .BTC, .USD, .Swap⟩ ∧
    str_to_inst "BTC-USDT-230421".data =
      some ⟨.Okx, .BTC, .USDT, .Futures ⟨2023, 4, 21⟩⟩ ∧
    str_to_inst "BTC-USDT-230421-10000-C".data =
      some ⟨.Okx, .BTC, .USDT, .Options ⟨2023, 4, 21⟩ 10000 .C⟩ :=
  ⟨fun _ _ hb hq => str_to_inst_two hb hq,
    fun _ _ hb hq => str_to_inst_three_swap hb hq,
    fun _ _ _ _ hb hq h2 hp => str_to_inst_three_futures hb hq h2 hp,
    fun _ _ _ _ _ _ _ _ hb hq h2 h3 h4 hd hk ht =>
      str_to_inst_five hb hq h2 h3 h4 hd hk ht,
    by decide, by decide, by decide⟩

/-- C6 witness: each dispatch arm at concrete token lists. -/
theorem c6_wire_dispatch_witness :
    str_to_inst ("ETH".data ++ '-' :: "USD".data) =
        some ⟨.Okx, .ETH, .USD, .Spot⟩ ∧
      str_to_inst ("ETH".data ++ '-' :: ("USD".data ++ '-' :: "SWAP".data)) =
        some ⟨.Okx, .ETH, .USD, .Swap⟩ ∧
      str_to_inst ("ETH".data ++ '-' :: ("USD".data ++ '-' :: "200327".data)) =
        some ⟨.Okx, .ETH, .USD, .Futures ⟨2020, 3, 27⟩⟩ ∧
      str_to_inst ("ETH".data ++ '-' :: ("USD".data ++ '-' ::
          ("200327".data ++ '-' :: ("500".data ++ '-' :: "P".data)))) =
        some ⟨.Okx, .ETH, .USD, .Options ⟨2020, 3, 27⟩ 500 .P⟩ :=
  ⟨c6_wire_dispatch.1 "ETH".data "USD".data (by decide) (by decide),
    c6_wire_dispatch.2.1 "ETH".data "USD".data (by decide) (by decide),
    c6_wire_dispatch.2.2.1 "ETH".data "USD".data "200327".data ⟨2020, 3, 27⟩
      (by decide) (by decide) (by decide) (by decide),
    c6_wire_dispatch.2.2.2.1 "ETH".data "USD".data "200327".data "500".data
      "P".data ⟨2020, 3, 27⟩ 500 .P (by decide) (by decide) (by decide)
      (by decide) (by decide) (by decide) (by decide) (by decide)⟩

/-! ## Claim C4 -/

/-- C4 (counterexample): decoding a wire instrument string with a bad
currency code does not fail with a `DecodeError` — `"FOO"` is not a
known code, yet `str_to_inst "FOO-USDT"` succeeds, silently
substituting the default `Ccy::Unknown`. -/
theorem c4_bad_ccy_counterexample :
    Ccy.fromChars? "FOO".data = none ∧
      str_to_inst "FOO-USDT".data = some ⟨.Okx, .Unknown, .USDT, .Spot⟩ := by
  decide

/-- C4 (amended): the inner `InstType` parser fails with a
field-identifying error for an unknown type token, a malformed date, a
non-integer strike and an invalid put/call code; the wire decoder
`str_to_inst`, however, `unwrap`s those failures into a panic
(a malformed three-token date panics; a token count outside {2, 3, 5}
hits `unreachable!()`), and an unknown currency code does not fail at
all but is silently replaced by the default `Ccy::Unknown`. -/
theorem c4_decode_errors :
    (∀ p0 : List Char, '-' ∉ p0 → p0 ≠ "Spot".data → p0 ≠ "Margin".data →
      p0 ≠ "Swap".data → p0 ≠ "Futures".data → p0 ≠ "Options".data →
      InstType.tryFrom p0 = .error "invalid instrument type") ∧
    (∀ p1 : List Char, '-' ∉ p1 → parseYYMMDD p1 = none →
      InstType.tryFrom ("Futures-".data ++ p1) = .error "invalid expiration date") ∧
    (∀ (p2 p3 p4 : List Char) (d : Date), '-' ∉ p2 → '-' ∉ p3 → '-' ∉ p4 →
      parseYYMMDD p2 = some d → parseIntChars? p3 = none →
      InstType.tryFrom ("Options-".data ++ p2 ++ '-' :: p3 ++ '-' :: p4) =
        .error "invalid strike") ∧
    (∀ (p2 p3 p4 : List Char) (d : Date) (k : Int), '-' ∉ p2 → '-' ∉ p3 → '-' ∉ p4 →
      parseYYMMDD p2 = some d → parseIntChars? p3 = some k →
      OptType.fromChars? p4 = none →
      InstType.tryFrom ("Options-".data ++ p2 ++ '-' :: p3 ++ '-' :: p4) =
        .error "invalid option type") ∧
    (∀ b q p2 : List Char, '-' ∉ b → '-' ∉ q → '-' ∉ p2 → p2 ≠ "SWAP".data →
      parseYYMMDD p2 = none →
      str_to_inst (b ++ '-' :: (q ++ '-' :: p2)) = none) ∧
    (∀ b q r s : List Char, '-' ∉ b → '-' ∉ q → '-' ∉ r → '-' ∉ s →
      str_to_inst (b ++ '-' :: (q ++ '-' :: (r ++ '-' :: s))) = none) ∧
    (∀ b q : List Char, '-' ∉ b → '-' ∉ q → Ccy.fromChars? b = none →
      str_to_inst (b ++ '-' :: q) =
        some ⟨.Okx, .Unknown, (Ccy.fromChars? q).getD .Unknown, .Spot⟩) := by
  refine ⟨fun _ h0 h1 h2 h3 h4 h5 => tryFrom_unknown_token h0 h1 h2 h3 h4 h5,
    fun _ h1 hp => tryFrom_futures_err h1 hp,
    fun _ _ _ _ h2 h3 h4 hd hk => tryFrom_options_err_strike h2 h3 h4 hd hk,
    fun _ _ _ _ _ h2 h3 h4 hd hk ht => tryFrom_options_err_opt h2 h3 h4 hd hk ht,
    fun _ _ _ hb hq h2 hne hp => str_to_inst_three_bad_date hb hq h2 hne hp,
    fun _ _ _ _ hb hq hr hs => str_to_inst_four_tokens hb hq hr hs,
    fun b q hb hq hcb => ?_⟩
  rw [str_to_inst_two hb hq, hcb]
  rfl

/-- C4 witness: each failure mode at concrete inputs. -/
theorem c4_decode_errors_witness :
    InstType.tryFrom "Foo".data = .error "invalid instrument type" ∧
      InstType.tryFrom ("Futures-".data ++ "999999".data) =
        .error "invalid expiration date" ∧
      InstType.tryFrom ("Options-".data ++ "230421".data ++ '-' :: "10x".data
          ++ '-' :: "C".data) = .error "invalid strike" ∧
      InstType.tryFrom ("Options-".data ++ "230421".data ++ '-' :: "10000".data
          ++ '-' :: "X".data) = .error "invalid option type" ∧
      str_to_inst ("BTC".data ++ '-' :: ("USDT".data ++ '-' :: "badly".data)) = none ∧
      str_to_inst ("A".data ++ '-' :: ("B".data ++ '-' ::
          ("C".data ++ '-' :: "D".data))) = none ∧
      str_to_inst ("FOO".data ++ '-' :: "USDT".data) =
        some ⟨.Okx, .Unknown, .USDT, .Spot⟩ :=
  ⟨c4_decode_errors.1 "Foo".data (by decide) (by decide) (by decide) (by decide)
      (by decide) (by decide),
    c4_decode_errors.2.1 "999999".data (by decide) (by decide),
    c4_decode_errors.2.2.1 "230421".data "10x".data "C".data ⟨2023, 4, 21⟩
      (by decide) (by decide) (by decide) (by decide) (by decide),
    c4_decode_errors.2.2.2.1 "230421".data "10000".data "X".data ⟨2023, 4, 21⟩
      10000 (by decide) (by decide) (by decide) (by decide) (by decide) (by decide),
    c4_decode_errors.2.2.2.2.1 "BTC".data "USDT".data "badly".data (by decide)
      (by decide) (by decide) (by decide) (by decide),
    c4_decode_errors.2.2.2.2.2.1 "A".data "B".data "C".data "D".data (by decide)
      (by decide) (by decide) (by decide),
    c4_decode_errors.2.2.2.2.2.2 "FOO".data "USDT".data (by decide) (by decide)
      (by decide)⟩

/-! ## Claim C10 -/

/-- C10 (confirmed): for wire instrument strings whose base or quote
token is not a known currency code, decoding still succeeds and
silently substitutes the generated default `Ccy::Unknown` for that
token; consequently two distinct wire strings (`FOO-USDT` and
`BAR-USDT`) decode to equal `Inst` values. -/
theorem c10_unknown_ccy_default :
    (∀ b q : List Char, '-' ∉ b → '-' ∉ q → Ccy.fromChars? b = none →
      str_to_inst (b ++ '-' :: q) =
        some ⟨.Okx, .Unknown, (Ccy.fromChars? q).getD .Unknown, .Spot⟩) ∧
    (∀ b q : List Char, '-' ∉ b → '-' ∉ q → Ccy.fromChars? q = none →
      str_to_inst (b ++ '-' :: q) =
        some ⟨.Okx, (Ccy.fromChars? b).getD .Unknown, .Unknown, .Spot⟩) ∧
    "FOO-USDT".data ≠ "BAR-USDT".data ∧
    str_to_inst "FOO-USDT".data = str_to_inst "BAR-USDT".data ∧
    str_to_inst "FOO-USDT".data = some ⟨.Okx, .Unknown, .USDT, .Spot⟩ := by
  refine ⟨fun b q hb hq hcb => ?_, fun b q hb hq hcq => ?_,
    by decide, by decide, by decide⟩
  · rw [str_to_inst_two hb hq, hcb]
    rfl
  · rw [str_to_inst_two hb hq, hcq]
    rfl

/-- C10 witness: the substitution at a concrete unknown base token. -/
theorem c10_unknown_ccy_default_witness :
    str_to_inst ("XYZ".data ++ '-' :: "BTC".data) =
      some ⟨.Okx, .Unknown, .BTC, .Spot⟩ :=
  c10_unknown_ccy_default.1 "XYZ".data "BTC".data (by decide) (by decide) (by decide)

/-! ## Claim C7 -/

/-- Level-list parsing preserves length and acts pointwise. -/
theorem parseLevels?_spec :
    ∀ (l : List (List Char × List Char)) (res : List (ℚ × ℚ)),
      parseLevels? l = some res →
        res.length = l.length ∧ ∀ i : Nat, res[i]? = (l[i]?).bind parseLevel? := by
  intro l
  induction l with
  | nil =>
    intro res h
    simp only [parseLevels?, Option.some.injEq] at h
    subst h
    simp
  | cons e es ih =>
    intro res h
    simp only [parseLevels?] at h
    rcases he : parseLevel? e with _ | v <;> rw [he] at h
    · exact Option.noConfusion h
    · rcases hes : parseLevels? es with _ | vs <;> rw [hes] at h
      · exact Option.noConfusion h
      · obtain rfl := Option.some.inj h
        obtain ⟨hlen, hget⟩ := ih vs hes
        refine ⟨by simp [hlen], ?_⟩
        intro i
        match i with
        | 0 => simp [he]
        | i + 1 => simp [hget i]

/-- Writing enumerated entries never changes the array's length. -/
theorem foldl_set_length {α : Type} :
    ∀ (l : List (Nat × α)) (acc : List α),
      (l.foldl (fun a p => a.set p.1 p.2) acc).length = acc.length := by
  intro l
  induction l with
  | nil => intro acc; rfl
  | cons e es ih =>
    intro acc
    simp only [List.foldl_cons]
    rw [ih]
    exact List.length_set acc e.1 e.2

/-- Slots below the enumeration's start index are untouched. -/
theorem foldl_set_enumFrom_lt {α : Type} :
    ∀ (entries : List α) (n : Nat) (acc : List α) (i : Nat), i < n →
      ((List.enumFrom n entries).foldl (fun a p => a.set p.1 p.2) acc)[i]? =
        acc[i]? := by
  intro entries
  induction entries with
  | nil => intro n acc i _; rfl
  | cons e es ih =>
    intro n acc i hi
    simp only [List.enumFrom_cons, List.foldl_cons]
    rw [ih (n + 1) _ i (by omega), List.getElem?_set_ne (by omega)]

/-- Slots at or above the enumeration's end are untouched. -/
theorem foldl_set_enumFrom_ge {α : Type} :
    ∀ (entries : List α) (n : Nat) (acc : List α) (i : Nat),
      n + entries.length ≤ i →
      ((List.enumFrom n entries).foldl (fun a p => a.set p.1 p.2) acc)[i]? =
        acc[i]? := by
  intro entries
  induction entries with
  | nil => intro n acc i _; rfl
  | cons e es ih =>
    intro n acc i hi
    simp only [List.length_cons] at hi
    simp only [List.enumFrom_cons, List.foldl_cons]
    rw [ih (n + 1) _ i (by omega), List.getElem?_set_ne (by omega)]

/-- Slots inside the enumeration receive their entry. -/
theorem foldl_set_enumFrom_hit {α : Type} :
    ∀ (entries : List α) (n : Nat) (acc : List α) (i : Nat),
      n + entries.length ≤ acc.length → n ≤ i → i < n + entries.length →
      ((List.enumFrom n entries).foldl (fun a p => a.set p.1 p.2) acc)[i]? =
        entries[i - n]? := by
  intro entries
  induction entries with
  | nil => intro n acc i _ _ h; simp at h; omega
  | cons e es ih =>
    intro n acc i hlen hn hi
    simp only [List.length_cons] at hlen hi
    simp only [List.enumFrom_cons, List.foldl_cons]
    by_cases hcase : i = n
    · subst hcase
      rw [foldl_set_enumFrom_lt es (i + 1) _ i (by omega)]
      rw [List.getElem?_set_eq (by omega)]
      simp
    · rw [ih (n + 1) _ i (by rw [List.length_set]; omega) (by omega) (by omega)]
      have hidx : i - n = (i - (n + 1)) + 1 := by omega
      rw [hidx]
      simp

/-- The five-slot array always has length five. -/
theorem fillLevels_length (entries : List (ℚ × ℚ)) :
    (fillLevels entries).length = 5 := by
  unfold fillLevels
  rw [foldl_set_length]
  simp

/-- Slots beyond the provided entries keep the zero pair. -/
theorem fillLevels_get_zero {entries : List (ℚ × ℚ)} {i : Nat}
    (hi : entries.length ≤ i) (h5 : i < 5) :
    (fillLevels entries)[i]? = some (0, 0) := by
  unfold fillLevels
  rw [foldl_set_enumFrom_ge entries 0 _ i (by omega), List.getElem?_replicate,
    if_pos h5]

/-- Slots covered by the provided entries receive them. -/
theorem fillLevels_get_val {entries : List (ℚ × ℚ)} {i : Nat}
    (hlen : entries.length ≤ 5) (hi : i < entries.length) :
    (fillLevels entries)[i]? = entries[i]? := by
  unfold fillLevels
  rw [foldl_set_enumFrom_hit entries 0 _ i (by simp; omega) (by omega) (by omega)]
  simp

/-- C7 (confirmed): decoding a valid depth frame always yields exactly
five ask levels and five bid levels; slots beyond the source's provided
count hold the zero pair `(0.0, 0.0)`, slots within it hold the parsed
levels, and entries beyond the fifth are ignored (the decoder reads the
same value from the truncated frame). -/
theorem c7_depth_shape :
    (∀ (now : Int) (f : Books5Frame) (dp : Depth), parse_books5 now f = some dp →
      dp.asks.length = 5 ∧ dp.bids.length = 5 ∧
      (∀ i, f.asks.length ≤ i → i < 5 → dp.asks[i]? = some (0, 0)) ∧
      (∀ i, f.bids.length ≤ i → i < 5 → dp.bids[i]? = some (0, 0)) ∧
      (∀ i, i < 5 → i < f.asks.length → dp.asks[i]? = (f.asks[i]?).bind parseLevel?) ∧
      (∀ i, i < 5 → i < f.bids.length → dp.bids[i]? = (f.bids[i]?).bind parseLevel?)) ∧
    (∀ (now : Int) (f : Books5Frame),
      parse_books5 now f =
        parse_books5 now { f with asks := f.asks.take 5, bids := f.bids.take 5 }) := by
  constructor
  · intro now f dp h
    unfold parse_books5 at h
    rcases hA : parseLevels? (f.asks.take 5) with _ | asksP <;> rw [hA] at h
    · exact Option.noConfusion h
    rcases hB : parseLevels? (f.bids.take 5) with _ | bidsP <;> rw [hB] at h
    · exact Option.noConfusion h
    rcases hI : str_to_inst f.instId with _ | inst <;> rw [hI] at h
    · exact Option.noConfusion h
    have hd := Option.some.inj h
    subst hd
    obtain ⟨hAlen, hAget⟩ := parseLevels?_spec _ _ hA
    obtain ⟨hBlen, hBget⟩ := parseLevels?_spec _ _ hB
    rw [List.length_take] at hAlen hBlen
    refine ⟨fillLevels_length _, fillLevels_length _, ?_, ?_, ?_, ?_⟩
    · intro i hi h5
      exact fillLevels_get_zero (by omega) h5
    · intro i hi h5
      exact fillLevels_get_zero (by omega) h5
    · intro i h5 hi
      rw [fillLevels_get_val (by omega) (by omega), hAget i,
        List.getElem?_take]
      simp [h5]
    · intro i h5 hi
      rw [fillLevels_get_val (by omega) (by omega), hBget i,
        List.getElem?_take]
      simp [h5]
  · intro now f
    simp [parse_books5, List.take_take]

/-- C7 witness: the three-ask/five-bid frame decodes to a depth whose
fourth and fifth ask slots are the zero pair while the bids are fully
populated. -/
theorem c7_depth_shape_witness :
    parse_books5 0 sampleFrame3 = some sampleDepth3 ∧
      sampleDepth3.asks.length = 5 ∧ sampleDepth3.bids.length = 5 ∧
      sampleDepth3.asks[3]? = some (0, 0) ∧ sampleDepth3.asks[4]? = some (0, 0) ∧
      sampleDepth3.bids[4]? = (sampleFrame3.bids[4]?).bind parseLevel? := by
  have h : parse_books5 0 sampleFrame3 = some sampleDepth3 := by decide
  have hc := c7_depth_shape.1 0 sampleFrame3 sampleDepth3 h
  exact ⟨h, hc.1, hc.2.1,
    hc.2.2.1 3 (by decide) (by decide),
    hc.2.2.1 4 (by decide) (by decide),
    hc.2.2.2.2.2 4 (by decide) (by decide)⟩

/-! ## Claim C8 -/

/-- C8 (confirmed): a REST order/cancel POST succeeds exactly when the
response's overall `code` field is `"0"` and the first data entry's
`sCode` field is `"0"`; a non-zero overall code fails with the
response's `msg` text, and a zero overall code with a non-zero
sub-status fails with the entry's `sMsg` text. -/
theorem c8_rest_post_status :
    (∀ r : OkxRestResp,
      postResult r = .ok () ↔ r.code = "0".data ∧ r.sCode = "0".data) ∧
    (∀ r : OkxRestResp, r.code ≠ "0".data → postResult r = .error r.msg) ∧
    (∀ r : OkxRestResp, r.code = "0".data → r.sCode ≠ "0".data →
      postResult r = .error r.sMsg) := by
  refine ⟨fun r => ?_, fun r hc => ?_, fun r hc hs => ?_⟩
  · unfold postResult
    split_ifs with h1 h2
    · simp [h1]
    · have hc := not_not.1 h1
      simp [hc, h2]
    · simp [h2]
  · unfold postResult
    rw [if_pos hc]
  · unfold postResult
    rw [if_neg (not_not.2 hc), if_neg hs]

/-- C8 witness: the three response shapes of the spec's scenario. -/
theorem c8_rest_post_status_witness :
    postResult ⟨"0".data, "".data, "0".data, "".data⟩ = .ok () ∧
      postResult ⟨"50011".data, "Too Many Requests".data, "".data, "".data⟩ =
        .error "Too Many Requests".data ∧
      postResult ⟨"0".data, "".data, "51008".data, "insufficient balance".data⟩ =
        .error "insufficient balance".data :=
  ⟨(c8_rest_post_status.1 _).2 ⟨rfl, rfl⟩,
    c8_rest_post_status.2.1 _ (by decide),
    c8_rest_post_status.2.2 _ rfl (by decide)⟩

/-! ## Claim C3 -/

/-- C3 (confirmed): in the REST gateway loop, a failed HTTP call for a
`NewOrder` pushes exactly one `Rejected` `ExecutionReport` carrying the
original instrument, `cl_ord_id`, side, price, size and order type (the
singleton list is the complete per-command output); a successful call
pushes nothing. A failed `CancelOrder` pushes exactly one
`CancelReject` with the original instrument and `cl_ord_id`; a
successful one pushes nothing. -/
theorem c3_rest_failure_synthesis :
    (∀ (ts : Int) (req : NewOrder) (e : List Char),
      restStep ts (.NewOrder req) (.error e) =
        [.ExecutionReport
          { c_time := ts, u_time := ts, inst := req.inst, ccy := .Unknown,
            ord_id := 0, cl_ord_id := req.cl_ord_id, px := req.px, sz := req.sz,
            notional_usd := 0, ord_type := req.ord_type, side := req.side,
            fill_px := 0, fill_sz := 0, acc_fill_sz := 0, avg_px := 0,
            state := .Rejected, lever := 0, fee := 0 }] ∧
      (restStep ts (.NewOrder req) (.error e)).length = 1) ∧
    (∀ (ts : Int) (req : NewOrder), restStep ts (.NewOrder req) (.ok ()) = []) ∧
    (∀ (ts : Int) (req : CancelOrder) (e : List Char),
      restStep ts (.CancelOrder req) (.error e) =
        [.CancelReject { u_time := ts, inst := req.inst, cl_ord_id := req.cl_ord_id }] ∧
      (restStep ts (.CancelOrder req) (.error e)).length = 1) ∧
    (∀ (ts : Int) (req : CancelOrder), restStep ts (.CancelOrder req) (.ok ()) = []) :=
  ⟨fun _ _ _ => ⟨rfl, rfl⟩, fun _ _ => rfl, fun _ _ _ => ⟨rfl, rfl⟩, fun _ _ => rfl⟩

/-- C3 witness: both commands at both outcomes, at concrete values. -/
theorem c3_rest_failure_synthesis_witness :
    restStep 1700000000000 (.NewOrder sampleNewOrder) (.error "err".data) =
        [.ExecutionReport
          { c_time := 1700000000000, u_time := 1700000000000,
            inst := sampleNewOrder.inst, ccy := .Unknown, ord_id := 0,
            cl_ord_id := sampleNewOrder.cl_ord_id, px := sampleNewOrder.px,
            sz := sampleNewOrder.sz, notional_usd := 0,
            ord_type := sampleNewOrder.ord_type, side := sampleNewOrder.side,
            fill_px := 0, fill_sz := 0, acc_fill_sz := 0, avg_px := 0,
            state := .Rejected, lever := 0, fee := 0 }] ∧
      restStep 1700000000000 (.NewOrder sampleNewOrder) (.ok ()) = [] ∧
      restStep 1700000000000 (.CancelOrder sampleCancelOrder) (.error "err".data) =
        [.CancelReject
          { u_time := 1700000000000, inst := sampleCancelOrder.inst,
            cl_ord_id := sampleCancelOrder.cl_ord_id }] ∧
      restStep 1700000000000 (.CancelOrder sampleCancelOrder) (.ok ()) = [] :=
  ⟨(c3_rest_failure_synthesis.1 1700000000000 sampleNewOrder "err".data).1,
    c3_rest_failure_synthesis.2.1 1700000000000 sampleNewOrder,
    (c3_rest_failure_synthesis.2.2.1 1700000000000 sampleCancelOrder "err".data).1,
    c3_rest_failure_synthesis.2.2.2 1700000000000 sampleCancelOrder⟩

/-! ## Claim C2 -/

/-- A successful cache lookup means the id is a cached key. -/
theorem PrivState.lookup_mem {st : PrivState} {id : Nat} {c : OCmd}
    (h : st.lookup id = some c) : id ∈ st.pending.map Prod.fst := by
  unfold PrivState.lookup at h
  rcases hf : st.pending.find? (fun p => p.1 = id) with _ | pr
  · rw [hf] at h
    exact Option.noConfusion h
  · have hp := List.find?_some hf
    have hm := List.mem_of_find?_eq_some hf
    simp only [decide_eq_true_eq] at hp
    exact hp ▸ List.mem_map_of_mem Prod.fst hm

/-- Under the cache invariant, every cached key is below the fresh-id
source. -/
theorem PrivState.lookup_lt {st : PrivState} (hinv : PrivInv st) {id : Nat}
    {c : OCmd} (h : st.lookup id = some c) : id < st.nextId :=
  hinv.2 id (PrivState.lookup_mem h)

/-- An id that is not a cached key looks up to nothing. -/
theorem PrivState.lookup_none {st : PrivState} {id : Nat}
    (h : id ∉ st.pending.map Prod.fst) : st.lookup id = none := by
  unfold PrivState.lookup
  have hf : st.pending.find? (fun p => p.1 = id) = none := by
    rw [List.find?_eq_none]
    intro x hx
    simp only [decide_eq_true_eq]
    intro he
    exact h (he ▸ List.mem_map_of_mem Prod.fst hx)
  rw [hf]
  rfl

/-- Erasure removes the id from the cached keys. -/
theorem PrivState.erase_key_not_mem (st : PrivState) (id : Nat) :
    id ∉ (st.erase id).pending.map Prod.fst := by
  unfold PrivState.erase
  intro hmem
  simp only [List.mem_map] at hmem
  obtain ⟨p, hp, hfst⟩ := hmem
  rw [List.mem_filter] at hp
  have h2 := hp.2
  simp only [decide_eq_true_eq] at h2
  exact h2 hfst

/-- Erasure only removes keys. -/
theorem PrivState.erase_key_subset {st : PrivState} {id k : Nat}
    (h : k ∈ (st.erase id).pending.map Prod.fst) : k ∈ st.pending.map Prod.fst := by
  unfold PrivState.erase at h
  simp only [List.mem_map] at h ⊢
  obtain ⟨p, hp, hfst⟩ := h
  exact ⟨p, List.mem_of_mem_filter hp, hfst⟩

/-- Erasure preserves the cache invariant. -/
theorem PrivState.erase_inv {st : PrivState} (hinv : PrivInv st) (id : Nat) :
    PrivInv (st.erase id) := by
  constructor
  · have hsub : (st.erase id).pending.Sublist st.pending := List.filter_sublist _
    exact hinv.1.sublist (hsub.map Prod.fst)
  · intro k hk
    exact hinv.2 k (PrivState.erase_key_subset hk)

/-- Every step of the private loop preserves the cache invariant. -/
theorem privStep_inv (ts : Int) (st : PrivState) (e : PrivEvent)
    (hinv : PrivInv st) : PrivInv (privStep ts st e).1 := by
  cases e with
  | cmd c =>
    simp only [privStep]
    constructor
    · simp only [List.map_cons]
      exact List.nodup_cons.2
        ⟨fun hmem => Nat.lt_irrefl _ (hinv.2 _ hmem), hinv.1⟩
    · intro k hk
      simp only [List.map_cons, List.mem_cons] at hk
      show k < st.nextId + 1
      rcases hk with rfl | hk
      · omega
      · have := hinv.2 k hk
        omega
  | ack id code =>
    simp only [privStep]
    rcases hl : st.lookup id with _ | c
    · exact hinv
    · dsimp only
      split
      · exact PrivState.erase_inv hinv id
      · exact PrivState.erase_inv hinv id
  | other => exact hinv

/-- A correlation id that is not cached and is already below the
fresh-id source never acquires a synthesized event: its id can never be
minted again, so the run emits nothing for it. -/
theorem privRun_zero (ts : Int) (id : Nat) :
    ∀ (evs : List PrivEvent) (st : PrivState), id ∉ st.pending.map Prod.fst →
      id < st.nextId →
      (privRun ts st evs).filter (fun p => p.1 = id) = [] := by
  intro evs
  induction evs with
  | nil => intro st _ _; rfl
  | cons e evs ih =>
    intro st hmem hlt
    cases e with
    | cmd c =>
      simp only [privRun, privStep, List.nil_append]
      refine ih _ ?_ (by show id < st.nextId + 1; omega)
      simp only [List.map_cons, List.mem_cons]
      rintro (rfl | hk)
      · omega
      · exact hmem hk
    | ack i code =>
      rcases hl : st.lookup i with _ | c
      · simp only [privRun, privStep, hl, List.nil_append]
        exact ih st hmem hlt
      · have hine : i ≠ id := by
          intro he
          exact hmem (he ▸ PrivState.lookup_mem hl)
        by_cases hcode : code = "0".data
        · simp only [privRun, privStep, hl, if_pos hcode, List.nil_append]
          exact ih _ (fun hk => hmem (PrivState.erase_key_subset hk)) hlt
        · simp only [privRun, privStep, hl, if_neg hcode, List.singleton_append,
            List.filter_cons]
          rw [if_neg (by simp [hine])]
          exact ih _ (fun hk => hmem (PrivState.erase_key_subset hk)) hlt
    | other =>
      simp only [privRun, privStep, List.nil_append]
      exact ih st hmem hlt

/-- Over any event trace from an invariant-respecting state, at most
one synthesized event is emitted per correlation id. -/
theorem privRun_at_most_one (ts : Int) (id : Nat) :
    ∀ (evs : List PrivEvent) (st : PrivState), PrivInv st →
      ((privRun ts st evs).filter (fun p => p.1 = id)).length ≤ 1 := by
  intro evs
  induction evs with
  | nil => intro st _; simp [privRun]
  | cons e evs ih =>
    intro st hinv
    cases e with
    | cmd c =>
      simp only [privRun, List.nil_append]
      exact ih _ (privStep_inv ts st (.cmd c) hinv)
    | ack i code =>
      rcases hl : st.lookup i with _ | c
      · simp only [privRun, privStep, hl, List.nil_append]
        exact ih st hinv
      · by_cases hcode : code = "0".data
        · simp only [privRun, privStep, hl, if_pos hcode, List.nil_append]
          exact ih _ (PrivState.erase_inv hinv i)
        · simp only [privRun, privStep, hl, if_neg hcode, List.singleton_append,
            List.filter_cons]
          by_cases hid : i = id
          · subst hid
            rw [if_pos (by simp)]
            rw [privRun_zero ts i evs _ (PrivState.erase_key_not_mem st i)
              (PrivState.lookup_lt hinv hl)]
            simp
          · rw [if_neg (by simp [hid])]
            exact ih _ (PrivState.erase_inv hinv i)
    | other =>
      simp only [privRun, privStep, List.nil_append]
      exact ih st hinv

/-- C2 (confirmed, spec-modelled): in the private client's `Active`
loop, every `NewOrder`/`CancelOrder` taken from the bus mints the fresh
correlation id `nextId` (not yet cached), sends exactly the
corresponding wire command, emits nothing, and caches the original
command under that id, with the cache holding exactly one entry for it
and the ownership invariant preserved; a failed acknowledgement for a
cached id removes the entry and emits exactly one synthesized rejection
(after which the id is gone from the cache); a successful
acknowledgement removes the entry silently; an acknowledgement with no
matching entry leaves the state unchanged and emits nothing (not
fatal); and over any event trace from an invariant-respecting state at
most one synthesized event is ever emitted per correlation id. -/
theorem c2_private_correlation :
    (∀ (ts : Int) (st : PrivState) (c : OCmd), PrivInv st →
      (privStep ts st (.cmd c)).2.1 =
        [match c with
         | .new o => WireCmd.order st.nextId o
         | .cancel k => WireCmd.cancelOrder st.nextId k] ∧
      (privStep ts st (.cmd c)).2.2 = [] ∧
      st.lookup st.nextId = none ∧
      (privStep ts st (.cmd c)).1.lookup st.nextId = some c ∧
      ((privStep ts st (.cmd c)).1.pending.map Prod.fst).count st.nextId = 1 ∧
      PrivInv (privStep ts st (.cmd c)).1) ∧
    (∀ (ts : Int) (st : PrivState) (id : Nat) (code : List Char) (c : OCmd),
      st.lookup id = some c → code ≠ "0".data →
      privStep ts st (.ack id code) = (st.erase id, [], [(id, synthReject ts c)]) ∧
      (st.erase id).lookup id = none) ∧
    (∀ (ts : Int) (st : PrivState) (id : Nat) (code : List Char) (c : OCmd),
      st.lookup id = some c → code = "0".data →
      privStep ts st (.ack id code) = (st.erase id, [], [])) ∧
    (∀ (ts : Int) (st : PrivState) (id : Nat) (code : List Char),
      st.lookup id = none →
      privStep ts st (.ack id code) = (st, [], [])) ∧
    (∀ (ts : Int) (id : Nat) (evs : List PrivEvent) (st : PrivState), PrivInv st →
      ((privRun ts st evs).filter (fun p => p.1 = id)).length ≤ 1) := by
  refine ⟨fun ts st c hinv => ?_, fun ts st id code c hl hcode => ?_,
    fun ts st id code c hl hcode => ?_, fun ts st id code hl => ?_,
    fun ts id evs st hinv => privRun_at_most_one ts id evs st hinv⟩
  · have hfresh : st.lookup st.nextId = none :=
      PrivState.lookup_none fun hmem => Nat.lt_irrefl _ (hinv.2 _ hmem)
    refine ⟨by cases c <;> rfl, by cases c <;> rfl, hfresh, ?_, ?_,
      privStep_inv ts st (.cmd c) hinv⟩
    · simp [privStep, PrivState.lookup, List.find?_cons]
    · simp only [privStep, List.map_cons, List.count_cons]
      rw [List.count_eq_zero.2 fun hmem => Nat.lt_irrefl _ (hinv.2 _ hmem)]
      simp
  · refine ⟨?_, PrivState.lookup_none (PrivState.erase_key_not_mem st id)⟩
    simp [privStep, hl, hcode]
  · simp [privStep, hl, hcode]
  · simp [privStep, hl]

/-- C2 witness: a concrete dispatch, failed acknowledgement, unmatched
acknowledgement and a double-failure trace bounded by one emission. -/
theorem c2_private_correlation_witness :
    (privStep 7 ⟨[], 5⟩ (.cmd (.new sampleNewOrder))).2.1 =
        [WireCmd.order 5 sampleNewOrder] ∧
      (privStep 7 ⟨[(5, .new sampleNewOrder)], 6⟩ (.ack 5 "1".data)) =
        ((⟨[(5, .new sampleNewOrder)], 6⟩ : PrivState).erase 5, [],
          [(5, synthReject 7 (.new sampleNewOrder))]) ∧
      (privStep 7 ⟨[], 5⟩ (.ack 3 "1".data)) = (⟨[], 5⟩, [], []) ∧
      ((privRun 7 ⟨[], 5⟩ [.cmd (.new sampleNewOrder), .ack 5 "1".data,
          .ack 5 "1".data]).filter (fun p => p.1 = 5)).length ≤ 1 :=
  ⟨(c2_private_correlation.1 7 ⟨[], 5⟩ (.new sampleNewOrder)
      ⟨List.nodup_nil, by simp⟩).1,
    (c2_private_correlation.2.1 7 ⟨[(5, .new sampleNewOrder)], 6⟩ 5 "1".data
      (.new sampleNewOrder) (by decide) (by decide)).1,
    c2_private_correlation.2.2.2.1 7 ⟨[], 5⟩ 3 "1".data (by decide),
    c2_private_correlation.2.2.2.2 7 5
      [.cmd (.new sampleNewOrder), .ack 5 "1".data, .ack 5 "1".data]
      ⟨[], 5⟩ ⟨List.nodup_nil, by simp⟩⟩


end Abraca
